import Mathlib

/-
Verification development for the planning_trees path-search core
(src/planning/planning_trees/src/tree_search.cpp and path_queue.cpp).

The C++ floats are modelled as exact reals; `atan2` is modelled by
`Complex.arg` (range (-pi, pi], and 0 at the origin, matching atan2);
the float `infinity` cost sentinel is modelled by `(⊤ : EReal)`.

The `Path` and `Waypoint` collaborator classes are not part of the two
source files; their operations (`hasWaypoint`, `addWaypoint`,
`createCopy`, `getCost`, `getDistNearestCone`, `waypoints.back()`) are
modelled from the spec: a path is an ordered list of waypoints, identity
of waypoints is position-based, `createCopy` is a deep copy (the
identity on values), the cost metric is an arbitrary deterministic
oracle passed as a parameter, and the pose of the root (empty) path is
the origin pose (0,0,0) (the spec's origin overload of the filter).
The spec does not fix the heading stored by `addWaypoint`; it is
modelled as 0.
-/

open Real Classical

noncomputable section

namespace PlanningTrees

/-- A raw 2D candidate point (the C++ `Point`, an xy pair). -/
structure Point where
  x : ℝ
  y : ℝ

/-- A cone position in the vehicle-local frame. -/
structure Cone where
  x : ℝ
  y : ℝ

/-- A waypoint: position plus heading. -/
structure Waypoint where
  x : ℝ
  y : ℝ
  heading : ℝ

/-- Modelled from the spec: a Path is an ordered sequence of waypoints;
the root path is the empty sequence. -/
abbrev Path := List Waypoint

/-- atan2(y, x), modelled as the argument of the complex number x + y*I.
Its range is (-pi, pi] and it is 0 at the origin, as for C `atan2`. -/
def atan2 (y x : ℝ) : ℝ := Complex.arg { re := x, im := y }

/-- First normalization step of tree_search.cpp lines 51-52: add 2*pi
if the angle is below -pi. -/
def normUp (a : ℝ) : ℝ :=
  if a < -π then a + 2 * π else a

/-- The one-step angle normalization of tree_search.cpp lines 51-54:
add 2*pi if below -pi, then subtract 2*pi if above pi. -/
def normOnce (a : ℝ) : ℝ :=
  if normUp a > π then normUp a - 2 * π else normUp a

/-- The acceptance test of TreeSearch::filterLocal (lines 45-58): the
one-step-normalized bearing from the pose to the point lies within
half the field of view, and the Euclidean distance from the pose is
within `maxDist`. -/
def accepts (fov maxDist x y heading px py : ℝ) : Prop :=
  |normOnce (atan2 (py - y) (px - x) - heading)| ≤ fov / 2 ∧
    Real.sqrt ((px - x) ^ 2 + (py - y) ^ 2) ≤ maxDist

/-- TreeSearch::filterLocal for Points (tree_search.cpp lines 40-61). -/
def filterLocal (points : List Point) (fov maxDist x y heading : ℝ) : List Point :=
  points.filter fun p => decide (accepts fov maxDist x y heading p.x p.y)

/-- TreeSearch::filterLocal for Cones (tree_search.cpp lines 17-38);
the same test, point by point, in input order. -/
def filterLocalCones (cones : List Cone) (fov maxDist x y heading : ℝ) : List Cone :=
  cones.filter fun c => decide (accepts fov maxDist x y heading c.x c.y)

/-- The TreeSearchParams configuration record. -/
structure TreeSearchParams where
  field_of_view : ℝ
  distance : ℝ
  triangulation_radius : ℝ
  triangulation_min_cone_dist : ℝ
  triangulation_min_waypoint_dist : ℝ
  path_queue_limit : ℕ
  max_search_iterations : ℕ
  max_waypoints_per_path : ℕ
  waypoint_field_of_view : ℝ
  waypoint_distance : ℝ

/-- One iteration of the running-minimum loop over candidate-to-point
distances: `none` is the initial float +infinity, and a smaller
distance replaces the current minimum. -/
def minDistStep (x y : ℝ) : Option ℝ → Point → Option ℝ
  | none, p => some (Real.sqrt ((p.x - x) ^ 2 + (p.y - y) ^ 2))
  | some m, p =>
    if Real.sqrt ((p.x - x) ^ 2 + (p.y - y) ^ 2) < m then
      some (Real.sqrt ((p.x - x) ^ 2 + (p.y - y) ^ 2))
    else some m

/-- Running minimum of the distances from (x, y) to the points of a
list, `none` meaning the initial float +infinity (no point seen yet);
this is the closest-waypoint loop of tree_search.cpp lines 77-83. -/
def minDistFold (x y : ℝ) (pts : List Point) : Option ℝ :=
  pts.foldl (minDistStep x y) none

/-- One iteration of the running-minimum loop over cone distances. -/
def coneDistStep (x y : ℝ) : Option ℝ → Cone → Option ℝ
  | none, c => some (Real.sqrt ((c.x - x) ^ 2 + (c.y - y) ^ 2))
  | some m, c =>
    if Real.sqrt ((c.x - x) ^ 2 + (c.y - y) ^ 2) < m then
      some (Real.sqrt ((c.x - x) ^ 2 + (c.y - y) ^ 2))
    else some m

/-- Modelled from the spec: Waypoint::getDistNearestCone, the minimum
distance from (x, y) to any cone (`none` when there are no cones). -/
def getDistNearestCone (x y : ℝ) (cones : List Cone) : Option ℝ :=
  cones.foldl (coneDistStep x y) none

/-- `optGT o t` holds when the running minimum `o` is strictly greater
than the threshold `t`; a `none` minimum is float +infinity, which
exceeds every threshold. -/
def optGT : Option ℝ → ℝ → Prop
  | none, _ => True
  | some m, t => t < m

/-- x-coordinate of the i-th ring candidate around a cone
(tree_search.cpp line 69). -/
def candX (params : TreeSearchParams) (cone : Cone) (i : ℕ) : ℝ :=
  cone.x + params.triangulation_radius * Real.cos ((i : ℝ) * (π / 4))

/-- y-coordinate of the i-th ring candidate around a cone
(tree_search.cpp line 70). -/
def candY (params : TreeSearchParams) (cone : Cone) (i : ℕ) : ℝ :=
  cone.y + params.triangulation_radius * Real.sin ((i : ℝ) * (π / 4))

/-- One candidate of TreeSearch::triangulate (lines 67-89): accept the
i-th ring candidate around `cone` iff its minimum distance to any cone
strictly exceeds `triangulation_min_cone_dist` and its minimum distance
to the already-accepted waypoints strictly exceeds
`triangulation_min_waypoint_dist`; append on acceptance. -/
def triStep (cones : List Cone) (params : TreeSearchParams) (cone : Cone)
    (acc : List Point) (i : ℕ) : List Point :=
  if optGT (getDistNearestCone (candX params cone i) (candY params cone i) cones)
        params.triangulation_min_cone_dist ∧
      optGT (minDistFold (candX params cone i) (candY params cone i) acc)
        params.triangulation_min_waypoint_dist then
    acc ++ [{ x := candX params cone i, y := candY params cone i }]
  else acc

/-- TreeSearch::triangulate (tree_search.cpp lines 63-92): for each cone
in input order, 8 ring candidates at angles i*pi/4, filtered greedily. -/
def triangulate (cones : List Cone) (params : TreeSearchParams) : List Point :=
  cones.foldl (fun acc cone => (List.range 8).foldl (triStep cones params cone) acc) []

/-- Modelled from the spec: Path::hasWaypoint, membership by position. -/
def hasWaypoint (p : Path) (w : Waypoint) : Prop :=
  ∃ u ∈ p, u.x = w.x ∧ u.y = w.y

/-- Modelled from the spec: the pose used to expand a path — its last
waypoint (`curr_path->waypoints.back()`), the origin pose for the root
(empty) path. -/
def lastWaypoint (p : Path) : Waypoint :=
  p.getLastD { x := 0, y := 0, heading := 0 }

/-- Modelled from the spec: Path::addWaypoint appends a waypoint at the
given position (heading modelled as 0, the spec does not fix it). -/
def addWaypoint (p : Path) (x y : ℝ) : Path :=
  p ++ [{ x := x, y := y, heading := 0 }]

/-- `p` contains no two waypoints at the same position. -/
def dupFree (p : Path) : Prop :=
  p.Pairwise fun u v => u.x ≠ v.x ∨ u.y ≠ v.y

/-- The PathQueue frontier: capacity, paths and their costs
(parallel lists, as the two parallel vectors of path_queue.h). -/
structure PathQueue where
  limit : ℕ
  paths : List Path
  costs : List EReal

/-- The linear scan of PathQueue::getWorstPath (path_queue.cpp lines
18-26): index of the maximum cost, first index winning ties. -/
def worstAux (l : List EReal) : ℕ :=
  (List.range l.length).foldl (fun w i => if l.getD w 0 < l.getD i 0 then i else w) 0

/-- The linear scan of PathQueue::getBestPath (path_queue.cpp lines
28-36): index of the minimum cost, first index winning ties. -/
def bestAux (l : List EReal) : ℕ :=
  (List.range l.length).foldl (fun w i => if l.getD i 0 < l.getD w 0 then i else w) 0

/-- PathQueue::getWorstPath. -/
def getWorstPath (q : PathQueue) : ℕ := worstAux q.costs

/-- PathQueue::getBestPath. -/
def getBestPath (q : PathQueue) : ℕ := bestAux q.costs

/-- PathQueue::addNewPath (path_queue.cpp lines 3-16): when full,
replace the worst entry if the new cost beats it, else reject; when
below capacity, append. -/
def addNewPath (q : PathQueue) (p : Path) (c : EReal) : PathQueue × Bool :=
  if q.limit ≤ q.paths.length then
    if c < q.costs.getD (getWorstPath q) 0 then
      ({ limit := q.limit, paths := q.paths.set (getWorstPath q) p,
         costs := q.costs.set (getWorstPath q) c }, true)
    else (q, false)
  else ({ limit := q.limit, paths := q.paths ++ [p], costs := q.costs ++ [c] }, true)

/-- Provenance tag of a frontier entry within one round of the search:
present at round start (or re-inserted unchanged), accepted by append,
or accepted by replacing an existing entry. -/
inductive BranchTag where
  | orig : BranchTag
  | app : BranchTag
  | rep : BranchTag
deriving DecidableEq

/-- addNewPath instrumented with a provenance tag list kept parallel to
the queue: identical queue behavior, and the tag list is updated at the
same place (append gets `tApp`, replacement gets `tRep`). -/
def addNewPathTag (q : PathQueue) (tags : List BranchTag) (p : Path) (c : EReal)
    (tApp tRep : BranchTag) : PathQueue × List BranchTag × Bool :=
  if q.limit ≤ q.paths.length then
    if c < q.costs.getD (getWorstPath q) 0 then
      ({ limit := q.limit, paths := q.paths.set (getWorstPath q) p,
         costs := q.costs.set (getWorstPath q) c },
        tags.set (getWorstPath q) tRep, true)
    else (q, tags, false)
  else ({ limit := q.limit, paths := q.paths ++ [p], costs := q.costs ++ [c] },
    tags ++ [tApp], true)

/-- State carried through one round of TreeSearch::getPath, with the
instrumentation needed to observe the search: the queue, the parallel
provenance tags, the round's any-branch-accepted flag (the negation of
`no_new_paths`), the dequeued entries with their tags, the queue as it
stood at each dequeue, and every intermediate queue state. -/
structure RoundState where
  q : PathQueue
  tags : List BranchTag
  accepted : Bool
  popped : List (Path × BranchTag)
  qsAtPop : List PathQueue
  qs : List PathQueue

/-- The candidate loop of TreeSearch::getPath (lines 119-132): for each
index k into the visible candidates, skip it if the candidate's position
is already in the path, otherwise branch by appending the entry of the
GLOBAL pool at index k (`this->waypoints[k]`, as the source does) and
offer the branch to the frontier. Returns the queue, tags, the
added_point flag and the intermediate queues. -/
def branchStep (pool : List Point) (cost : Path → ℝ) (curr : Path) (possible : List Point)
    (st : PathQueue × List BranchTag × Bool × List PathQueue) (k : ℕ) :
    PathQueue × List BranchTag × Bool × List PathQueue :=
  let cand := possible.getD k { x := 0, y := 0 }
  if hasWaypoint curr { x := cand.x, y := cand.y, heading := 0 } then st
  else
    let pw := pool.getD k { x := 0, y := 0 }
    let np := addWaypoint curr pw.x pw.y
    let nc : EReal := ((cost np : ℝ) : EReal)
    let r := addNewPathTag st.1 st.2.1 np nc BranchTag.app BranchTag.rep
    (r.1, r.2.1, st.2.2.1 || r.2.2, st.2.2.2 ++ [r.1])

def branchFold (pool : List Point) (cost : Path → ℝ) (curr : Path)
    (possible : List Point) (q0 : PathQueue) (tags0 : List BranchTag) :
    PathQueue × List BranchTag × Bool × List PathQueue :=
  (List.range possible.length).foldl (branchStep pool cost curr possible) (q0, tags0, false, [])

/-- One iteration of the inner loop of TreeSearch::getPath (lines
102-136): dequeue the front entry; if its waypoint count exceeds the
cap, re-insert it unchanged; otherwise expand it from its last
waypoint's pose and re-insert it unchanged only when no branch was
accepted. -/
def roundBody (pool : List Point) (params : TreeSearchParams) (cost : Path → ℝ)
    (st : RoundState) : RoundState :=
  let curr := st.q.paths.headD []
  let cc := st.q.costs.headD 0
  let t := st.tags.headD BranchTag.orig
  let q1 : PathQueue := { limit := st.q.limit, paths := st.q.paths.tail, costs := st.q.costs.tail }
  let tags1 := st.tags.tail
  if params.max_waypoints_per_path < curr.length then
    let r := addNewPathTag q1 tags1 curr cc BranchTag.orig BranchTag.orig
    { q := r.1, tags := r.2.1, accepted := st.accepted,
      popped := st.popped ++ [(curr, t)], qsAtPop := st.qsAtPop ++ [st.q],
      qs := st.qs ++ [q1, r.1] }
  else
    let lw := lastWaypoint curr
    let possible := filterLocal pool params.waypoint_field_of_view params.waypoint_distance
      lw.x lw.y lw.heading
    let b := branchFold pool cost curr possible q1 tags1
    if b.2.2.1 then
      { q := b.1, tags := b.2.1, accepted := true,
        popped := st.popped ++ [(curr, t)], qsAtPop := st.qsAtPop ++ [st.q],
        qs := st.qs ++ q1 :: b.2.2.2 }
    else
      let r := addNewPathTag b.1 b.2.1 curr cc BranchTag.orig BranchTag.orig
      { q := r.1, tags := r.2.1, accepted := st.accepted,
        popped := st.popped ++ [(curr, t)], qsAtPop := st.qsAtPop ++ [st.q],
        qs := st.qs ++ (q1 :: b.2.2.2) ++ [r.1] }

/-- One round of TreeSearch::getPath (lines 100-136): take the frontier
size at round start and run the inner body that many times. All entries
present at round start are tagged as original. -/
def runRound (pool : List Point) (params : TreeSearchParams) (cost : Path → ℝ)
    (q : PathQueue) : RoundState :=
  (List.range q.paths.length).foldl (fun st _ => roundBody pool params cost st)
    { q := q, tags := List.replicate q.paths.length BranchTag.orig,
      accepted := false, popped := [], qsAtPop := [], qs := [] }

/-- A completed round together with the queue it started from. -/
structure RoundOut where
  startQ : PathQueue
  out : RoundState

instance : Inhabited RoundOut :=
  ⟨{ startQ := { limit := 0, paths := [], costs := [] },
     out := { q := { limit := 0, paths := [], costs := [] }, tags := [],
              accepted := false, popped := [], qsAtPop := [], qs := [] } }⟩

/-- The outer loop of TreeSearch::getPath (lines 99-140): run up to `n`
rounds, stopping early after a round in which no branch was accepted
(`no_new_paths`). Returns the final queue and the executed rounds. -/
def searchRec (pool : List Point) (params : TreeSearchParams) (cost : Path → ℝ) :
    ℕ → PathQueue → PathQueue × List RoundOut
  | 0, q => (q, [])
  | Nat.succ n, q =>
    let r := runRound pool params cost q
    if r.accepted then
      let rest := searchRec pool params cost n r.q
      (rest.1, { startQ := q, out := r } :: rest.2)
    else (r.q, [{ startQ := q, out := r }])

/-- The frontier as first seeded by TreeSearch::getPath (lines 95-97):
an empty queue of the configured capacity receiving the empty root path
with the +infinity sentinel cost. -/
def initialQueue (params : TreeSearchParams) : PathQueue :=
  (addNewPath { limit := params.path_queue_limit, paths := [], costs := [] } [] ⊤).1

/-- The whole search of TreeSearch::getPath: seed, then rounds. -/
def getPathSearch (pool : List Point) (params : TreeSearchParams) (cost : Path → ℝ) :
    PathQueue × List RoundOut :=
  searchRec pool params cost params.max_search_iterations (initialQueue params)

/-- TreeSearch::getPath's returned value (lines 142-143): the entry of
the final frontier at the index picked by getBestPath. -/
def getPathOn (pool : List Point) (params : TreeSearchParams) (cost : Path → ℝ) : Path :=
  let qf := (getPathSearch pool params cost).1
  qf.paths.getD (getBestPath qf) []

/-- The TreeSearch object: cones after the constructor's visibility
filter, the generated waypoint pool, and the configuration. -/
structure TreeSearch where
  cones : List Cone
  waypoints : List Point
  params : TreeSearchParams

/-- The TreeSearch constructor (tree_search.cpp lines 4-9). -/
def TreeSearch.init (cones : List Cone) (params : TreeSearchParams) : TreeSearch :=
  let fc := filterLocalCones cones params.field_of_view params.distance 0 0 0
  { cones := fc, waypoints := triangulate fc params, params := params }

/-- TreeSearch::getPath as a method of the constructed object, given
the external cost oracle. -/
def TreeSearch.getPath (ts : TreeSearch) (cost : Path → ℝ) : Path :=
  getPathOn ts.waypoints ts.params cost

/-- Every queue state observable during the search: the seeded queue
and every intermediate queue of every executed round. -/
def searchQueues (pool : List Point) (params : TreeSearchParams) (cost : Path → ℝ) :
    List PathQueue :=
  initialQueue params ::
    ((getPathSearch pool params cost).2.map fun ro => ro.out.qsAtPop ++ ro.out.qs).flatten

/-- The queue as it stood at each dequeue performed during the search. -/
def searchPopQueues (pool : List Point) (params : TreeSearchParams) (cost : Path → ℝ) :
    List PathQueue :=
  ((getPathSearch pool params cost).2.map fun ro => ro.out.qsAtPop).flatten

/-- Written from the spec's words (section 4.1): normalize an angle into
(-pi, pi] by adding or subtracting 2*pi once as needed. -/
def specNorm (b : ℝ) : ℝ :=
  if b ≤ -π then b + 2 * π else if π < b then b - 2 * π else b

/-- Written from the spec's words (section 4.1): accept a point iff the
absolute normalized bearing (angle from the pose to the point minus the
heading) is at most fov/2 and the Euclidean distance to the pose is at
most maxDist. -/
def specAccept (fov maxDist x y heading px py : ℝ) : Prop :=
  |specNorm (atan2 (py - y) (px - x) - heading)| ≤ fov / 2 ∧
    Real.sqrt ((px - x) ^ 2 + (py - y) ^ 2) ≤ maxDist

/-- Written from the spec's words: the filter keeps, in input order,
exactly the accepted points. -/
def filterSpec (fov maxDist x y heading : ℝ) : List Point → List Point
  | [] => []
  | p :: ps =>
    if specAccept fov maxDist x y heading p.x p.y then
      p :: filterSpec fov maxDist x y heading ps
    else filterSpec fov maxDist x y heading ps

/-- Written from the spec's words (testable property 5): keep exactly
the points within Euclidean distance `maxDist` of the origin. -/
def filterByDist (points : List Point) (maxDist : ℝ) : List Point :=
  points.filter fun p => decide (Real.sqrt (p.x ^ 2 + p.y ^ 2) ≤ maxDist)

/-- Waypoint at (1, 0): the pool entry generated at ring angle 0. -/
def wp0 : Waypoint := { x := 1, y := 0, heading := 0 }

/-- Waypoint at (0, 1): the pool entry generated at ring angle pi/2. -/
def wp2 : Waypoint := { x := 0, y := 1, heading := 0 }

/-- Waypoint at (-1, 0): the pool entry generated at ring angle pi. -/
def wp4 : Waypoint := { x := -1, y := 0, heading := 0 }

/-- Waypoint at (0, -1): the pool entry generated at ring angle 3*pi/2. -/
def wp6 : Waypoint := { x := 0, y := -1, heading := 0 }

/-- Pool point at (1, 0). -/
def pt0 : Point := { x := 1, y := 0 }

/-- Pool point at (0, 1). -/
def pt2 : Point := { x := 0, y := 1 }

/-- Pool point at (-1, 0). -/
def pt4 : Point := { x := -1, y := 0 }

/-- Pool point at (0, -1). -/
def pt6 : Point := { x := 0, y := -1 }

/-- A single cone at the origin: the concrete planning input used by the
counterexample runs. -/
def cexCones : List Cone := [{ x := 0, y := 0 }]

/-- Concrete parameters: full 2*pi fields of view, unit triangulation
ring, thresholds 1/2 (cone) and 1 (waypoint), frontier capacity 2,
5 rounds, waypoint cap 5, waypoint visibility radius 3/2. On
`cexCones` the generated pool is [(1,0), (0,1), (-1,0), (0,-1)]. -/
def cexParams : TreeSearchParams :=
  { field_of_view := 2 * π, distance := 100, triangulation_radius := 1,
    triangulation_min_cone_dist := 1 / 2, triangulation_min_waypoint_dist := 1,
    path_queue_limit := 2, max_search_iterations := 5, max_waypoints_per_path := 5,
    waypoint_field_of_view := 2 * π, waypoint_distance := 3 / 2 }

/-- `cexParams` with a frontier capacity of 10, so that every offered
branch is accepted by appending (the frontier never fills). -/
def cex2Params : TreeSearchParams :=
  { field_of_view := 2 * π, distance := 100, triangulation_radius := 1,
    triangulation_min_cone_dist := 1 / 2, triangulation_min_waypoint_dist := 1,
    path_queue_limit := 10, max_search_iterations := 5, max_waypoints_per_path := 5,
    waypoint_field_of_view := 2 * π, waypoint_distance := 3 / 2 }

/-- A deterministic cost oracle (the Path::getCost collaborator is
external to the two source files): explicit values on the handful of
paths reached in the first two rounds of the counterexample run,
100 * length elsewhere; strictly increasing along every append chain it
is evaluated on. -/
def cex3Cost (p : Path) : ℝ :=
  if p = [wp0] then 10
  else if p = [wp2] then 20
  else if p = [wp0, wp2] then 15
  else if p = [wp0, wp4] then 12
  else if p = [wp4] then 30
  else if p = [wp6] then 30
  else 100 * p.length

/-- `cexParams` with the minimum-cone-distance threshold raised to 1,
so that the ring candidates sit at exactly the threshold distance. -/
def c9Params : TreeSearchParams :=
  { cexParams with triangulation_min_cone_dist := 1 }

/-- `cexParams` with frontier capacity 1 and two rounds: the minimal
configuration on which the pool-indexed branch append surfaces in the
returned path. -/
def c2Params : TreeSearchParams :=
  { field_of_view := 2 * π, distance := 100, triangulation_radius := 1,
    triangulation_min_cone_dist := 1 / 2, triangulation_min_waypoint_dist := 1,
    path_queue_limit := 1, max_search_iterations := 2, max_waypoints_per_path := 5,
    waypoint_field_of_view := 2 * π, waypoint_distance := 3 / 2 }

/-- A second deterministic cost oracle: ranks the one-waypoint paths so
that [wp4] survives the capacity-1 frontier of round 1, then makes the
branch duplicating wp4 the cheapest in round 2. -/
def c2Cost (p : Path) : ℝ :=
  if p = [wp0] then 3
  else if p = [wp2] then 2
  else if p = [wp4] then 1
  else if p = [wp6] then 5
  else if p = [wp4, wp0] then 10
  else if p = [wp4, wp4] then 0
  else 100 * p.length

/-- No entry among the first `R` provenance tags marks an
appended-this-round path. -/
def noAppPrefix (tags : List BranchTag) (R : ℕ) : Prop :=
  ∀ i < R, tags.get? i ≠ some BranchTag.app

/-- Invariant carried through the candidate loop: capacity `K` and the
tag/queue parallelism are preserved, the queue never shrinks below `d`
(its length at loop entry) nor grows past `K`, the first `R` tags never
mark an appended path, and every recorded queue state is bounded. -/
def bfInv (K R d : ℕ) (st : PathQueue × List BranchTag × Bool × List PathQueue) : Prop :=
  st.1.limit = K ∧
  st.1.costs.length = st.1.paths.length ∧
  st.2.1.length = st.1.paths.length ∧
  d ≤ st.1.paths.length ∧
  st.1.paths.length ≤ K ∧
  noAppPrefix st.2.1 R ∧
  (st.2.2.1 = false → st.1.paths.length = d) ∧
  (st.2.2.1 = true → d < K → d + 1 ≤ st.1.paths.length) ∧
  ∀ qq ∈ st.2.2.2, qq.limit = K ∧ qq.paths.length ≤ K

/-- Invariant carried through one round: `K` is the capacity, `s` the
frontier size at round start, `r` the number of dequeues still to come.
The queue stays between `s` and `K` in size, the first `r` tags never
mark an appended path, every dequeued entry so far carried a
non-appended tag, and every recorded queue state is bounded (those at
dequeues also non-empty whenever `s` is positive). -/
def roundInv (K s r : ℕ) (st : RoundState) : Prop :=
  st.q.limit = K ∧
  st.q.costs.length = st.q.paths.length ∧
  st.tags.length = st.q.paths.length ∧
  st.q.paths.length ≤ K ∧
  s ≤ st.q.paths.length ∧
  r ≤ s ∧
  noAppPrefix st.tags r ∧
  st.popped.length + r = s ∧
  (∀ pr ∈ st.popped, pr.2 ≠ BranchTag.app) ∧
  (∀ qq ∈ st.qs, qq.limit = K ∧ qq.paths.length ≤ K) ∧
  ∀ qq ∈ st.qsAtPop, qq.limit = K ∧ qq.paths.length ≤ K ∧ s ≤ qq.paths.length

/-! Helper lemmas. -/

lemma sqrt_le_of_sq_le {a b : ℝ} (hb : 0 ≤ b) (h : a ≤ b ^ 2) : Real.sqrt a ≤ b := by
  calc Real.sqrt a ≤ Real.sqrt (b ^ 2) := Real.sqrt_le_sqrt h
    _ = b := Real.sqrt_sq hb

lemma lt_sqrt_of_sq_lt {a b : ℝ} (hb : 0 ≤ b) (h : b ^ 2 < a) : b < Real.sqrt a := by
  calc b = Real.sqrt (b ^ 2) := (Real.sqrt_sq hb).symm
    _ < Real.sqrt a := Real.sqrt_lt_sqrt (sq_nonneg b) h

lemma atan2_mem (y x : ℝ) : -π < atan2 y x ∧ atan2 y x ≤ π :=
  ⟨Complex.neg_pi_lt_arg _, Complex.arg_le_pi _⟩

lemma normOnce_of_mem {a : ℝ} (h1 : -π < a) (h2 : a ≤ π) : normOnce a = a := by
  have hu : normUp a = a := if_neg (by linarith)
  unfold normOnce
  rw [hu, if_neg (by simp only [gt_iff_lt, not_lt]; linarith)]

lemma normOnce_atan2 (y x : ℝ) : normOnce (atan2 y x - 0) = atan2 y x := by
  rw [sub_zero]
  exact normOnce_of_mem (atan2_mem y x).1 (atan2_mem y x).2

/-- With a full-circle field of view and zero heading the angle test is
always satisfied, so acceptance reduces to the distance test. -/
lemma accepts_two_pi (maxDist x y px py : ℝ) :
    accepts (2 * π) maxDist x y 0 px py ↔
      Real.sqrt ((px - x) ^ 2 + (py - y) ^ 2) ≤ maxDist := by
  unfold accepts
  rw [normOnce_atan2]
  constructor
  · exact fun h => h.2
  · intro h
    refine ⟨?_, h⟩
    rw [abs_le]
    constructor
    · have := (atan2_mem (py - y) (px - x)).1
      linarith
    · have := (atan2_mem (py - y) (px - x)).2
      linarith

lemma abs_specNorm_eq_abs_normOnce (b : ℝ) : |specNorm b| = |normOnce b| := by
  rcases lt_trichotomy b (-π) with h | h | h
  · have hu : normUp b = b + 2 * π := if_pos h
    have hno : normOnce b = b + 2 * π := by
      unfold normOnce
      rw [hu, if_neg (by simp only [gt_iff_lt, not_lt]; linarith)]
    have hsp : specNorm b = b + 2 * π := by
      unfold specNorm
      rw [if_pos (le_of_lt h)]
    rw [hno, hsp]
  · subst h
    have hu : normUp (-π) = -π := if_neg (lt_irrefl _)
    have hno : normOnce (-π) = -π := by
      unfold normOnce
      rw [hu, if_neg (by simp only [gt_iff_lt, not_lt]; linarith [Real.pi_pos])]
    have hsp : specNorm (-π) = π := by
      unfold specNorm
      rw [if_pos le_rfl]
      ring
    rw [hno, hsp, abs_neg]
  · have hu : normUp b = b := if_neg (by linarith)
    have hsp1 : ¬ b ≤ -π := by linarith
    by_cases hp : π < b
    · have hno : normOnce b = b - 2 * π := by
        unfold normOnce
        rw [hu, if_pos hp]
      have hsp : specNorm b = b - 2 * π := by
        unfold specNorm
        rw [if_neg hsp1, if_pos hp]
      rw [hno, hsp]
    · have hno : normOnce b = b := by
        unfold normOnce
        rw [hu, if_neg hp]
      have hsp : specNorm b = b := by
        unfold specNorm
        rw [if_neg hsp1, if_neg hp]
      rw [hno, hsp]

lemma specAccept_iff_accepts (fov maxDist x y heading px py : ℝ) :
    specAccept fov maxDist x y heading px py ↔ accepts fov maxDist x y heading px py := by
  unfold specAccept accepts
  rw [abs_specNorm_eq_abs_normOnce]

/-! Claims about the geometric filter. -/

/-- C8: for every point list, pose, field of view and distance bound,
filterLocal returns, in the relative order of the input, exactly the
points whose one-step-normalized bearing from the pose has absolute
value at most fov/2 and whose Euclidean distance to the pose is at most
maxDist (the spec-side filter), and has no other effect. -/
theorem c8_filterLocal_matches_spec (points : List Point) (fov maxDist x y heading : ℝ) :
    filterLocal points fov maxDist x y heading = filterSpec fov maxDist x y heading points := by
  induction points with
  | nil => rfl
  | cons p ps ih =>
    rw [filterLocal, List.filter_cons, filterSpec]
    by_cases h : accepts fov maxDist x y heading p.x p.y
    · rw [if_pos (by simpa using h), if_pos ((specAccept_iff_accepts _ _ _ _ _ _ _).mpr h)]
      rw [← filterLocal, ih]
    · rw [if_neg (by simpa using h), if_neg (fun hc =>
        h ((specAccept_iff_accepts _ _ _ _ _ _ _).mp hc))]
      rw [← filterLocal, ih]

/-- C7 counterexample: with fov = pi the point (-1, 0) at distance 1 is
rejected by filterLocal even though every point within distance 2 of
the origin should be kept according to the claim — the claim's
distance-only characterization of the fov = pi filter is false. -/
theorem c7_counterexample :
    filterLocal [{ x := -1, y := 0 }] π 2 0 0 0 = [] ∧
      filterByDist [{ x := -1, y := 0 }] 2 = [{ x := -1, y := 0 }] := by
  constructor
  · rw [filterLocal, List.filter_cons]
    have harg : atan2 (0 - 0 : ℝ) (-1 - 0) = π := by
      have : ({ re := (-1 : ℝ) - 0, im := (0 : ℝ) - 0 } : ℂ) = (-1 : ℂ) := by
        apply Complex.ext <;> simp
      rw [atan2, this, Complex.arg_neg_one]
    have hnot : ¬ accepts π 2 0 0 0 (-1) 0 := by
      unfold accepts
      rw [harg, sub_zero, normOnce_of_mem (by linarith [Real.pi_pos]) le_rfl]
      intro h
      have h1 : |π| = π := abs_of_nonneg (le_of_lt Real.pi_pos)
      rw [h1] at h
      linarith [Real.pi_pos, h.1]
    rw [if_neg (by simpa using hnot)]
    rfl
  · rw [filterByDist, List.filter_cons]
    have hd : Real.sqrt ((-1 : ℝ) ^ 2 + 0 ^ 2) ≤ 2 := by
      apply sqrt_le_of_sq_le (by norm_num)
      norm_num
    rw [if_pos (by simp only [decide_eq_true_eq]; exact hd)]
    rfl

/-- C7 amended: with a full-circle field of view (fov = 2*pi), origin
(0,0) and heading 0, filterLocal returns exactly the points whose
Euclidean distance from the origin is at most the bound, for any angle,
including the exact angular wrap boundary. -/
theorem c7_filter_two_pi_distance_only (points : List Point) (maxDist : ℝ) :
    filterLocal points (2 * π) maxDist 0 0 0 = filterByDist points maxDist := by
  unfold filterLocal filterByDist
  congr 1
  funext p
  congr 1
  apply propext
  rw [accepts_two_pi]
  norm_num

/-! Claims about the waypoint generator. -/

/-- C9: a triangulation candidate whose minimum distance to the cones
is exactly `triangulation_min_cone_dist`, or whose minimum distance to
the already-accepted waypoints is exactly
`triangulation_min_waypoint_dist`, is excluded: the comparisons of
tree_search.cpp lines 84-86 are strict. -/
theorem c9_triangulation_boundary_strict (cones : List Cone) (params : TreeSearchParams)
    (cone : Cone) (acc : List Point) (i : ℕ)
    (h : getDistNearestCone (candX params cone i) (candY params cone i) cones =
          some params.triangulation_min_cone_dist ∨
        minDistFold (candX params cone i) (candY params cone i) acc =
          some params.triangulation_min_waypoint_dist) :
    triStep cones params cone acc i = acc := by
  unfold triStep
  rcases h with h | h
  · rw [if_neg]
    intro hc
    have := hc.1
    rw [h] at this
    exact lt_irrefl _ this
  · rw [if_neg]
    intro hc
    have := hc.2
    rw [h] at this
    exact lt_irrefl _ this

/-- C9 witness: for the cone at the origin with unit triangulation
radius and threshold 1, the first ring candidate (1, 0) lies at exactly
the threshold distance from the cone set and is rejected. -/
theorem c9_witness :
    getDistNearestCone (candX c9Params { x := 0, y := 0 } 0)
        (candY c9Params { x := 0, y := 0 } 0) cexCones =
      some c9Params.triangulation_min_cone_dist ∧
    triStep cexCones c9Params { x := 0, y := 0 } [] 0 = [] := by
  have hx : candX c9Params { x := 0, y := 0 } 0 = 1 := by
    simp [candX, c9Params, cexParams, Real.cos_zero]
  have hy : candY c9Params { x := 0, y := 0 } 0 = 0 := by
    simp [candY, c9Params, cexParams, Real.sin_zero]
  have h : getDistNearestCone (candX c9Params { x := 0, y := 0 } 0)
      (candY c9Params { x := 0, y := 0 } 0) cexCones =
      some c9Params.triangulation_min_cone_dist := by
    rw [hx, hy]
    simp only [getDistNearestCone, coneDistStep, cexCones, List.foldl_cons, List.foldl_nil]
    have : ((0 : ℝ) - 1) ^ 2 + ((0 : ℝ) - 0) ^ 2 = 1 := by norm_num
    rw [this, Real.sqrt_one]
    simp [c9Params, cexParams]
  exact ⟨h, c9_triangulation_boundary_strict cexCones c9Params _ [] 0 (Or.inl h)⟩

/-! Characterization of the worst/best linear scans. -/

lemma worstAux_spec (l : List EReal) (hne : l ≠ []) :
    worstAux l < l.length ∧
      (∀ i < l.length, l.getD i 0 ≤ l.getD (worstAux l) 0) ∧
      ∀ i < worstAux l, l.getD i 0 < l.getD (worstAux l) 0 := by
  have key : ∀ n, 1 ≤ n → n ≤ l.length →
      ((List.range n).foldl (fun w i => if l.getD w 0 < l.getD i 0 then i else w) 0 < n ∧
        (∀ i < n, l.getD i 0 ≤
          l.getD ((List.range n).foldl
            (fun w i => if l.getD w 0 < l.getD i 0 then i else w) 0) 0) ∧
        ∀ i < (List.range n).foldl (fun w i => if l.getD w 0 < l.getD i 0 then i else w) 0,
          l.getD i 0 <
            l.getD ((List.range n).foldl
              (fun w i => if l.getD w 0 < l.getD i 0 then i else w) 0) 0) := by
    intro n
    induction n with
    | zero => intro h; exact absurd h (by norm_num)
    | succ n ih =>
      intro _ hlen
      rcases Nat.eq_zero_or_pos n with hn | hn
      · subst hn
        rw [show List.range 1 = [0] from rfl]
        simp only [List.foldl_cons, List.foldl_nil, if_neg (lt_irrefl _)]
        refine ⟨Nat.zero_lt_one, ?_, ?_⟩
        · intro i hi
          interval_cases i
          exact le_rfl
        · intro i hi
          exact absurd hi (Nat.not_lt_zero i)
      · have ihn := ih hn (le_trans (Nat.le_succ n) hlen)
        set w := (List.range n).foldl (fun w i => if l.getD w 0 < l.getD i 0 then i else w) 0
          with hw
        have hfold : (List.range (n + 1)).foldl
            (fun w i => if l.getD w 0 < l.getD i 0 then i else w) 0 =
            if l.getD w 0 < l.getD n 0 then n else w := by
          rw [List.range_succ, List.foldl_append, List.foldl_cons, List.foldl_nil]
        rw [hfold]
        by_cases hc : l.getD w 0 < l.getD n 0
        · rw [if_pos hc]
          refine ⟨Nat.lt_succ_self n, ?_, ?_⟩
          · intro i hi
            rcases Nat.lt_succ_iff_lt_or_eq.mp hi with hi | hi
            · exact le_of_lt (lt_of_le_of_lt (ihn.2.1 i hi) hc)
            · subst hi; exact le_rfl
          · intro i hi
            exact lt_of_le_of_lt (ihn.2.1 i hi) hc
        · rw [if_neg hc]
          refine ⟨lt_trans ihn.1 (Nat.lt_succ_self n), ?_, ihn.2.2⟩
          intro i hi
          rcases Nat.lt_succ_iff_lt_or_eq.mp hi with hi | hi
          · exact ihn.2.1 i hi
          · subst hi; exact not_lt.mp hc
  have hlen : 1 ≤ l.length := by
    rcases l with _ | ⟨a, l⟩
    · exact absurd rfl hne
    · simp
  exact key l.length hlen le_rfl

lemma bestAux_lt_length (l : List EReal) (hne : l ≠ []) : bestAux l < l.length := by
  have key : ∀ n, 1 ≤ n →
      (List.range n).foldl (fun w i => if l.getD i 0 < l.getD w 0 then i else w) 0 < n := by
    intro n
    induction n with
    | zero => intro h; exact absurd h (by norm_num)
    | succ n ih =>
      intro _
      have hfold : (List.range (n + 1)).foldl
          (fun w i => if l.getD i 0 < l.getD w 0 then i else w) 0 =
          if l.getD n 0 <
              l.getD ((List.range n).foldl
                (fun w i => if l.getD i 0 < l.getD w 0 then i else w) 0) 0 then n
          else (List.range n).foldl (fun w i => if l.getD i 0 < l.getD w 0 then i else w) 0 := by
        rw [List.range_succ, List.foldl_append, List.foldl_cons, List.foldl_nil]
      rw [hfold]
      rcases Nat.eq_zero_or_pos n with hn | hn
      · subst hn
        simp only [List.range_zero, List.foldl_nil]
        split_ifs <;> exact Nat.zero_lt_one
      · split_ifs
        · exact Nat.lt_succ_self n
        · exact lt_trans (ih hn) (Nat.lt_succ_self n)
  have hlen : 1 ≤ l.length := by
    rcases l with _ | ⟨a, l⟩
    · exact absurd rfl hne
    · simp
  exact key l.length hlen

/-! Claim about the frontier's admission rule. -/

/-- C4: addNewPath appends and accepts while the frontier is below
capacity; at capacity it locates the maximum-cost entry (first index
winning ties), replaces it and accepts exactly when the new cost is
strictly smaller, and otherwise rejects leaving the frontier
unchanged. -/
theorem c4_addNewPath_spec (q : PathQueue) (p : Path) (c : EReal)
    (hwf : q.paths.length = q.costs.length) :
    (q.paths.length < q.limit →
      addNewPath q p c =
        ({ limit := q.limit, paths := q.paths ++ [p], costs := q.costs ++ [c] }, true)) ∧
    (q.limit ≤ q.paths.length → q.paths ≠ [] →
      getWorstPath q < q.costs.length ∧
      (∀ i < q.costs.length, q.costs.getD i 0 ≤ q.costs.getD (getWorstPath q) 0) ∧
      (∀ i < getWorstPath q, q.costs.getD i 0 < q.costs.getD (getWorstPath q) 0) ∧
      (c < q.costs.getD (getWorstPath q) 0 →
        addNewPath q p c =
          ({ limit := q.limit, paths := q.paths.set (getWorstPath q) p,
             costs := q.costs.set (getWorstPath q) c }, true)) ∧
      (q.costs.getD (getWorstPath q) 0 ≤ c → addNewPath q p c = (q, false))) := by
  constructor
  · intro h
    unfold addNewPath
    rw [if_neg (not_le.mpr h)]
  · intro hlim hne
    have hcne : q.costs ≠ [] := by
      intro hc
      apply hne
      have : q.paths.length = 0 := by rw [hwf, hc]; rfl
      exact List.length_eq_zero.mp this
    have hchar := worstAux_spec q.costs hcne
    refine ⟨hchar.1, hchar.2.1, hchar.2.2, ?_, ?_⟩
    · intro hc
      unfold addNewPath
      rw [if_pos hlim, if_pos hc]
    · intro hc
      unfold addNewPath
      rw [if_pos hlim, if_neg (not_lt.mpr hc)]

/-- C4 witness: a full one-slot frontier holding cost 5 accepts cost 3
by replacing its single (worst) entry. -/
theorem c4_witness :
    addNewPath { limit := 1, paths := [[wp0]], costs := [((5 : ℝ) : EReal)] }
        [wp2] ((3 : ℝ) : EReal)
      = ({ limit := 1, paths := [[wp2]], costs := [((3 : ℝ) : EReal)] }, true) := by
  have hw : getWorstPath { limit := 1, paths := [[wp0]], costs := [((5 : ℝ) : EReal)] } = 0 := by
    rw [getWorstPath, worstAux]
    rw [show List.range ([((5 : ℝ) : EReal)].length) = [0] from rfl]
    simp
  have h := (c4_addNewPath_spec
    { limit := 1, paths := [[wp0]], costs := [((5 : ℝ) : EReal)] }
    [wp2] ((3 : ℝ) : EReal) rfl).2 (by simp) (by simp)
  have hlt : ((3 : ℝ) : EReal) <
      ({ limit := 1, paths := [[wp0]], costs := [((5 : ℝ) : EReal)] } :
        PathQueue).costs.getD (getWorstPath
          { limit := 1, paths := [[wp0]], costs := [((5 : ℝ) : EReal)] }) 0 := by
    rw [hw]
    simp only [List.getD_cons_zero]
    exact_mod_cast (by norm_num : (3 : ℝ) < 5)
  have heq := h.2.2.2.1 hlt
  rw [heq, hw]
  rfl

/-! List helpers for the tag-prefix bookkeeping. -/

lemma get?_set_or {α : Type} (l : List α) (w i : ℕ) (a : α) :
    (l.set w a).get? i = l.get? i ∨ (l.set w a).get? i = some a := by
  induction l generalizing w i with
  | nil => left; rfl
  | cons x xs ih =>
    cases w with
    | zero =>
      cases i with
      | zero => right; rfl
      | succ j => left; rfl
    | succ v =>
      cases i with
      | zero => left; rfl
      | succ j => exact ih v j

lemma get?_tail_eq {α : Type} (l : List α) (i : ℕ) : l.tail.get? i = l.get? (i + 1) := by
  cases l with
  | nil => rfl
  | cons x xs => rfl

lemma get?_append_left {α : Type} (l l' : List α) (i : ℕ) (h : i < l.length) :
    (l ++ l').get? i = l.get? i := by
  induction l generalizing i with
  | nil => exact absurd h (by simp)
  | cons x xs ih =>
    cases i with
    | zero => rfl
    | succ j => exact ih j (by simpa using h)

lemma noAppPrefix_tail {tags : List BranchTag} {r : ℕ} (h : noAppPrefix tags r) :
    noAppPrefix tags.tail (r - 1) := by
  intro i hi
  rw [get?_tail_eq]
  exact h (i + 1) (by omega)

lemma headD_ne_app {tags : List BranchTag} {r : ℕ} (h : noAppPrefix tags r) (hr : 1 ≤ r) :
    tags.headD BranchTag.orig ≠ BranchTag.app := by
  cases tags with
  | nil =>
    intro hc
    exact BranchTag.noConfusion hc
  | cons t ts =>
    have := h 0 hr
    intro hc
    exact this (by rw [List.get?]; exact congrArg some hc)

lemma noAppPrefix_replicate (n r : ℕ) : noAppPrefix (List.replicate n BranchTag.orig) r := by
  intro i hi hc
  have hm : BranchTag.app ∈ List.replicate n BranchTag.orig := List.get?_mem hc
  exact BranchTag.noConfusion (List.eq_of_mem_replicate hm)

/-! Behavior of the tagged frontier insertion. -/

lemma addNewPathTag_limit (q : PathQueue) (tags : List BranchTag) (p : Path) (c : EReal)
    (tA tR : BranchTag) : (addNewPathTag q tags p c tA tR).1.limit = q.limit := by
  unfold addNewPathTag
  split_ifs <;> rfl

lemma addNewPathTag_costsLen (q : PathQueue) (tags : List BranchTag) (p : Path) (c : EReal)
    (tA tR : BranchTag) (h : q.costs.length = q.paths.length) :
    (addNewPathTag q tags p c tA tR).1.costs.length =
      (addNewPathTag q tags p c tA tR).1.paths.length := by
  unfold addNewPathTag
  split_ifs <;> simp [h]

lemma addNewPathTag_tagsLen (q : PathQueue) (tags : List BranchTag) (p : Path) (c : EReal)
    (tA tR : BranchTag) (h : tags.length = q.paths.length) :
    (addNewPathTag q tags p c tA tR).2.1.length =
      (addNewPathTag q tags p c tA tR).1.paths.length := by
  unfold addNewPathTag
  split_ifs <;> simp [h]

lemma addNewPathTag_len_le (q : PathQueue) (tags : List BranchTag) (p : Path) (c : EReal)
    (tA tR : BranchTag) :
    q.paths.length ≤ (addNewPathTag q tags p c tA tR).1.paths.length := by
  unfold addNewPathTag
  split_ifs <;> simp

lemma addNewPathTag_len_bound (q : PathQueue) (tags : List BranchTag) (p : Path) (c : EReal)
    (tA tR : BranchTag) (h : q.paths.length ≤ q.limit) :
    (addNewPathTag q tags p c tA tR).1.paths.length ≤ q.limit := by
  unfold addNewPathTag
  split_ifs with h1 h2 <;> simp
  · exact h
  · exact h
  · omega

lemma addNewPathTag_cases (q : PathQueue) (tags : List BranchTag) (p : Path) (c : EReal)
    (tA tR : BranchTag) :
    (q.limit ≤ q.paths.length ∧
        (addNewPathTag q tags p c tA tR).1.paths.length = q.paths.length) ∨
      (¬ q.limit ≤ q.paths.length ∧
        (addNewPathTag q tags p c tA tR).1.paths.length = q.paths.length + 1 ∧
        (addNewPathTag q tags p c tA tR).2.2 = true) := by
  unfold addNewPathTag
  split_ifs with h1 h2
  · exact Or.inl ⟨h1, by simp⟩
  · exact Or.inl ⟨h1, rfl⟩
  · exact Or.inr ⟨h1, by simp, rfl⟩

lemma noAppPrefix_addNewPathTag (q : PathQueue) (tags : List BranchTag) (p : Path) (c : EReal)
    (tA tR : BranchTag) {R : ℕ} (hpre : noAppPrefix tags R) (hR : R ≤ tags.length)
    (htR : tR ≠ BranchTag.app) :
    noAppPrefix (addNewPathTag q tags p c tA tR).2.1 R := by
  unfold addNewPathTag
  split_ifs
  · intro i hi
    rcases get?_set_or tags (getWorstPath q) i tR with hc | hc
    · rw [hc]; exact hpre i hi
    · rw [hc]
      intro hcc
      exact htR (Option.some.inj hcc)
  · exact hpre
  · intro i hi
    rw [get?_append_left _ _ _ (lt_of_lt_of_le hi hR)]
    exact hpre i hi

lemma bool_or_false (a b : Bool) (h : (a || b) = false) : a = false ∧ b = false := by
  cases a <;> cases b <;> simp_all

lemma bool_or_true (a b : Bool) (h : (a || b) = true) : a = true ∨ b = true := by
  cases a <;> cases b <;> simp_all

lemma addNewPathTag_of_false (q : PathQueue) (tags : List BranchTag) (p : Path) (c : EReal)
    (tA tR : BranchTag) (h : (addNewPathTag q tags p c tA tR).2.2 = false) :
    (addNewPathTag q tags p c tA tR).1 = q ∧ (addNewPathTag q tags p c tA tR).2.1 = tags := by
  by_cases h1 : q.limit ≤ q.paths.length
  · by_cases h2 : c < q.costs.getD (getWorstPath q) 0
    · have ht : (addNewPathTag q tags p c tA tR).2.2 = true := by
        unfold addNewPathTag
        rw [if_pos h1, if_pos h2]
      rw [ht] at h
      exact absurd h (by simp)
    · constructor <;> (unfold addNewPathTag; rw [if_pos h1, if_neg h2])
  · have ht : (addNewPathTag q tags p c tA tR).2.2 = true := by
      unfold addNewPathTag
      rw [if_neg h1]
    rw [ht] at h
    exact absurd h (by simp)

/-! Invariant preservation through the candidate loop. -/

lemma branchStep_inv (pool : List Point) (cost : Path → ℝ) (curr : Path)
    (possible : List Point) {K R d : ℕ} (hRd : R ≤ d)
    (st : PathQueue × List BranchTag × Bool × List PathQueue) (k : ℕ)
    (h : bfInv K R d st) : bfInv K R d (branchStep pool cost curr possible st k) := by
  obtain ⟨h1, h2, h3, h4, h5, h6, h7, h8, h9⟩ := h
  simp only [branchStep]
  split_ifs with hw
  · exact ⟨h1, h2, h3, h4, h5, h6, h7, h8, h9⟩
  · refine ⟨?_, ?_, ?_, ?_, ?_, ?_, ?_, ?_, ?_⟩
    · rw [addNewPathTag_limit]; exact h1
    · exact addNewPathTag_costsLen _ _ _ _ _ _ h2
    · exact addNewPathTag_tagsLen _ _ _ _ _ _ h3
    · exact le_trans h4 (addNewPathTag_len_le _ _ _ _ _ _)
    · have := addNewPathTag_len_bound st.1 st.2.1
        (addWaypoint curr (pool.getD k { x := 0, y := 0 }).x (pool.getD k { x := 0, y := 0 }).y)
        ((cost (addWaypoint curr (pool.getD k { x := 0, y := 0 }).x
          (pool.getD k { x := 0, y := 0 }).y) : ℝ) : EReal)
        BranchTag.app BranchTag.rep (by rw [h1]; exact h5)
      rw [h1] at this
      exact this
    · exact noAppPrefix_addNewPathTag _ _ _ _ _ _ h6 (by omega) (by intro hc; cases hc)
    · intro hfalse
      obtain ⟨ha, hb⟩ := bool_or_false _ _ hfalse
      have hq := addNewPathTag_of_false st.1 st.2.1 _ _ BranchTag.app BranchTag.rep hb
      rw [hq.1]
      exact h7 ha
    · intro htrue hdK
      rcases bool_or_true _ _ htrue with ha | hb
      · exact le_trans (h8 ha hdK) (addNewPathTag_len_le _ _ _ _ _ _)
      · rcases Bool.eq_false_or_eq_true st.2.2.1 with ha | ha
        · exact le_trans (h8 ha hdK) (addNewPathTag_len_le _ _ _ _ _ _)
        · have hlen : st.1.paths.length = d := h7 ha
          rcases addNewPathTag_cases st.1 st.2.1
            (addWaypoint curr (pool.getD k { x := 0, y := 0 }).x (pool.getD k { x := 0, y := 0 }).y)
            ((cost (addWaypoint curr (pool.getD k { x := 0, y := 0 }).x
              (pool.getD k { x := 0, y := 0 }).y) : ℝ) : EReal)
            BranchTag.app BranchTag.rep with hcase | hcase
          · rw [h1, hlen] at hcase
            omega
          · rw [hcase.2.1, hlen]
    · intro qq hqq
      rcases List.mem_append.mp hqq with hqq | hqq
      · exact h9 qq hqq
      · have hqeq : qq = (addNewPathTag st.1 st.2.1
            (addWaypoint curr (pool.getD k { x := 0, y := 0 }).x
              (pool.getD k { x := 0, y := 0 }).y)
            ((cost (addWaypoint curr (pool.getD k { x := 0, y := 0 }).x
              (pool.getD k { x := 0, y := 0 }).y) : ℝ) : EReal)
            BranchTag.app BranchTag.rep).1 := by
          simpa using hqq
        subst hqeq
        constructor
        · rw [addNewPathTag_limit]; exact h1
        · have := addNewPathTag_len_bound st.1 st.2.1
            (addWaypoint curr (pool.getD k { x := 0, y := 0 }).x (pool.getD k { x := 0, y := 0 }).y)
            ((cost (addWaypoint curr (pool.getD k { x := 0, y := 0 }).x
              (pool.getD k { x := 0, y := 0 }).y) : ℝ) : EReal)
            BranchTag.app BranchTag.rep (by rw [h1]; exact h5)
          rw [h1] at this
          exact this

lemma branchFold_inv (pool : List Point) (cost : Path → ℝ) (curr : Path)
    (possible : List Point) (q0 : PathQueue) (tags0 : List BranchTag) {K R : ℕ}
    (hlim : q0.limit = K) (hcosts : q0.costs.length = q0.paths.length)
    (htags : tags0.length = q0.paths.length) (hbound : q0.paths.length ≤ K)
    (hR : R ≤ q0.paths.length) (hpre : noAppPrefix tags0 R) :
    bfInv K R q0.paths.length (branchFold pool cost curr possible q0 tags0) := by
  have key : ∀ (l : List ℕ) st, bfInv K R q0.paths.length st →
      bfInv K R q0.paths.length (l.foldl (branchStep pool cost curr possible) st) := by
    intro l
    induction l with
    | nil => intro st h; exact h
    | cons a l ih =>
      intro st h
      exact ih _ (branchStep_inv pool cost curr possible hR st a h)
  exact key _ _ ⟨hlim, hcosts, htags, le_rfl, hbound, hpre, fun _ => rfl,
    by intro h; exact absurd h (by simp), by simp⟩

/-! Invariant preservation through one inner-loop iteration and one round. -/

lemma roundBody_inv (pool : List Point) (params : TreeSearchParams) (cost : Path → ℝ)
    {K s r : ℕ} (st : RoundState) (hr : 1 ≤ r) (h : roundInv K s r st) :
    roundInv K s (r - 1) (roundBody pool params cost st) := by
  obtain ⟨h1, h2, h3, h4, h5, h6, h7, h8, h9, h10, h11⟩ := h
  simp only [roundBody]
  set curr := st.q.paths.headD [] with hcurr
  set cc := st.q.costs.headD 0 with hcc
  set t := st.tags.headD BranchTag.orig with ht
  set q1 : PathQueue :=
    { limit := st.q.limit, paths := st.q.paths.tail, costs := st.q.costs.tail } with hq1
  set tags1 := st.tags.tail with htags1
  have hq1lim : q1.limit = K := h1
  have hq1len : q1.paths.length = st.q.paths.length - 1 := List.length_tail _
  have hq1costs : q1.costs.length = q1.paths.length := by
    show st.q.costs.tail.length = st.q.paths.tail.length
    rw [List.length_tail, List.length_tail, h2]
  have htags1len : tags1.length = q1.paths.length := by
    show st.tags.tail.length = st.q.paths.tail.length
    rw [List.length_tail, List.length_tail, h3]
  have hq1bound : q1.paths.length ≤ K := by rw [hq1len]; omega
  have hr1q1 : r - 1 ≤ q1.paths.length := by rw [hq1len]; omega
  have hpre1 : noAppPrefix tags1 (r - 1) := noAppPrefix_tail h7
  have htpop : t ≠ BranchTag.app := headD_ne_app h7 hr
  have hsK : s ≤ K := le_trans h5 h4
  have hpoppedLen : (st.popped ++ [(curr, t)]).length + (r - 1) = s := by
    rw [List.length_append]
    simp only [List.length_singleton]
    omega
  have hpoppedTags : ∀ pr ∈ st.popped ++ [(curr, t)], pr.2 ≠ BranchTag.app := by
    intro pr hpr
    rcases List.mem_append.mp hpr with hpr | hpr
    · exact h9 pr hpr
    · rw [List.mem_singleton.mp hpr]
      exact htpop
  have hqsAtPop : ∀ qq ∈ st.qsAtPop ++ [st.q],
      qq.limit = K ∧ qq.paths.length ≤ K ∧ s ≤ qq.paths.length := by
    intro qq hqq
    rcases List.mem_append.mp hqq with hqq | hqq
    · exact h11 qq hqq
    · rw [List.mem_singleton.mp hqq]
      exact ⟨h1, h4, h5⟩
  -- Facts about re-inserting a (path, cost) pair after the dequeue.
  have readd : ∀ (qq : PathQueue) (tgs : List BranchTag),
      qq.limit = K → qq.costs.length = qq.paths.length → tgs.length = qq.paths.length →
      qq.paths.length ≤ K → st.q.paths.length - 1 ≤ qq.paths.length →
      noAppPrefix tgs (r - 1) →
      ((addNewPathTag qq tgs curr cc BranchTag.orig BranchTag.orig).1.limit = K ∧
        (addNewPathTag qq tgs curr cc BranchTag.orig BranchTag.orig).1.costs.length =
          (addNewPathTag qq tgs curr cc BranchTag.orig BranchTag.orig).1.paths.length ∧
        (addNewPathTag qq tgs curr cc BranchTag.orig BranchTag.orig).2.1.length =
          (addNewPathTag qq tgs curr cc BranchTag.orig BranchTag.orig).1.paths.length ∧
        (addNewPathTag qq tgs curr cc BranchTag.orig BranchTag.orig).1.paths.length ≤ K ∧
        s ≤ (addNewPathTag qq tgs curr cc BranchTag.orig BranchTag.orig).1.paths.length ∧
        noAppPrefix (addNewPathTag qq tgs curr cc BranchTag.orig BranchTag.orig).2.1 (r - 1)) := by
    intro qq tgs hqlim hqcosts htgs hqb hql hqpre
    refine ⟨?_, ?_, ?_, ?_, ?_, ?_⟩
    · rw [addNewPathTag_limit]; exact hqlim
    · exact addNewPathTag_costsLen _ _ _ _ _ _ hqcosts
    · exact addNewPathTag_tagsLen _ _ _ _ _ _ htgs
    · have := addNewPathTag_len_bound qq tgs curr cc BranchTag.orig BranchTag.orig
        (by rw [hqlim]; exact hqb)
      rw [hqlim] at this
      exact this
    · rcases addNewPathTag_cases qq tgs curr cc BranchTag.orig BranchTag.orig with
        ⟨hf, hlen⟩ | ⟨hnf, hlen, _⟩
      · rw [hlen]
        rw [hqlim] at hf
        omega
      · rw [hlen]
        omega
    · exact noAppPrefix_addNewPathTag _ _ _ _ _ _ hqpre (by omega) (by intro hc; cases hc)
  split_ifs with hcap hadd
  · -- capped path: re-insert unchanged
    have hre := readd q1 tags1 hq1lim hq1costs htags1len hq1bound (by omega) hpre1
    refine ⟨hre.1, hre.2.1, hre.2.2.1, hre.2.2.2.1, hre.2.2.2.2.1, by omega,
      hre.2.2.2.2.2, hpoppedLen, hpoppedTags, ?_, hqsAtPop⟩
    intro qq hqq
    rcases List.mem_append.mp hqq with hqq | hqq
    · exact h10 qq hqq
    · rcases List.mem_cons.mp hqq with hqq | hqq
      · rw [hqq]; exact ⟨hq1lim, hq1bound⟩
      · rw [List.mem_singleton.mp hqq]
        exact ⟨hre.1, hre.2.2.2.1⟩
  · -- some branch was accepted: the expanded frontier replaces the path
    set possible := filterLocal pool params.waypoint_field_of_view params.waypoint_distance
      (lastWaypoint curr).x (lastWaypoint curr).y (lastWaypoint curr).heading with hposs
    obtain ⟨b1, b2, b3, b4, b5, b6, b7, b8, b9⟩ :=
      branchFold_inv pool cost curr possible q1 tags1 hq1lim hq1costs htags1len hq1bound
        hr1q1 hpre1
    refine ⟨b1, b2, b3, b5, ?_, by omega, b6, hpoppedLen, hpoppedTags, ?_, hqsAtPop⟩
    · show s ≤ (branchFold pool cost curr possible q1 tags1).1.paths.length
      rcases Nat.eq_zero_or_pos st.q.paths.length with hz | hz
      · have hs0 : s = 0 := by omega
        omega
      · have hd : q1.paths.length < K := by omega
        have := b8 hadd hd
        omega
    · intro qq hqq
      rcases List.mem_append.mp hqq with hqq | hqq
      · exact h10 qq hqq
      · rcases List.mem_cons.mp hqq with hqq | hqq
        · rw [hqq]; exact ⟨hq1lim, hq1bound⟩
        · exact b9 qq hqq
  · -- no branch accepted: re-insert the original unchanged
    set possible := filterLocal pool params.waypoint_field_of_view params.waypoint_distance
      (lastWaypoint curr).x (lastWaypoint curr).y (lastWaypoint curr).heading with hposs
    obtain ⟨b1, b2, b3, b4, b5, b6, b7, b8, b9⟩ :=
      branchFold_inv pool cost curr possible q1 tags1 hq1lim hq1costs htags1len hq1bound
        hr1q1 hpre1
    set b := branchFold pool cost curr possible q1 tags1 with hb
    have hre := readd b.1 b.2.1 b1 b2 b3 b5 (by omega) b6
    refine ⟨hre.1, hre.2.1, hre.2.2.1, hre.2.2.2.1, hre.2.2.2.2.1, by omega,
      hre.2.2.2.2.2, hpoppedLen, hpoppedTags, ?_, hqsAtPop⟩
    intro qq hqq
    rcases List.mem_append.mp hqq with hqq | hqq
    · rcases List.mem_append.mp hqq with hqq | hqq
      · exact h10 qq hqq
      · rcases List.mem_cons.mp hqq with hqq | hqq
        · rw [hqq]; exact ⟨hq1lim, hq1bound⟩
        · exact b9 qq hqq
    · rw [List.mem_singleton.mp hqq]
      exact ⟨hre.1, hre.2.2.2.1⟩

lemma foldl_roundBody_inv (pool : List Point) (params : TreeSearchParams) (cost : Path → ℝ)
    {K s : ℕ} :
    ∀ (l : List ℕ) (st : RoundState) (r : ℕ), l.length ≤ r → roundInv K s r st →
      roundInv K s (r - l.length)
        (l.foldl (fun st _ => roundBody pool params cost st) st) := by
  intro l
  induction l with
  | nil =>
    intro st r _ h
    simpa using h
  | cons a l ih =>
    intro st r hlen h
    have hr1 : 1 ≤ r := by
      simp only [List.length_cons] at hlen
      omega
    have hb := roundBody_inv pool params cost st hr1 h
    have hrec := ih (roundBody pool params cost st) (r - 1)
      (by simp only [List.length_cons] at hlen; omega) hb
    have harith : r - (a :: l).length = r - 1 - l.length := by
      simp only [List.length_cons]
      omega
    rw [List.foldl_cons, harith]
    exact hrec

lemma runRound_inv (pool : List Point) (params : TreeSearchParams) (cost : Path → ℝ)
    (q : PathQueue) (hq : q.paths.length ≤ q.limit)
    (hwf : q.costs.length = q.paths.length) :
    roundInv q.limit q.paths.length 0 (runRound pool params cost q) := by
  have hinit : roundInv q.limit q.paths.length q.paths.length
      { q := q, tags := List.replicate q.paths.length BranchTag.orig,
        accepted := false, popped := [], qsAtPop := [], qs := [] } := by
    refine ⟨rfl, hwf, by simp, hq, le_rfl, le_rfl, noAppPrefix_replicate _ _, by simp,
      by simp, by simp, by simp⟩
  have hfold := foldl_roundBody_inv pool params cost (List.range q.paths.length) _
    q.paths.length (by simp) hinit
  simp only [List.length_range, Nat.sub_self] at hfold
  exact hfold

/-! Claim C3: per-round dequeue discipline. -/

/-- C3 counterexample helper is developed later from the concrete run;
here is the amended general statement. C3 amended: each round performs
exactly as many dequeues as the frontier held at round start, and a path
accepted into the frontier by appending during a round is never dequeued
in that same round (only an entry present at round start — possibly
re-inserted unchanged — or a path accepted by replacing an entry can
be). -/
theorem c3_amended_rounds_no_append_redequeue (pool : List Point) (params : TreeSearchParams)
    (cost : Path → ℝ) (q : PathQueue) (hq : q.paths.length ≤ q.limit)
    (hwf : q.costs.length = q.paths.length) :
    (runRound pool params cost q).popped.length = q.paths.length ∧
      ∀ pr ∈ (runRound pool params cost q).popped, pr.2 ≠ BranchTag.app := by
  have h := runRound_inv pool params cost q hq hwf
  obtain ⟨h1, h2, h3, h4, h5, h6, h7, h8, h9, h10, h11⟩ := h
  exact ⟨by omega, h9⟩

/-- C3 amended witness: the round on the seeded one-entry frontier with
an empty pool performs exactly one dequeue and no dequeued entry carries
the appended-this-round tag. -/
theorem c3_amended_witness :
    (runRound [] cexParams (fun _ => (0 : ℝ))
        { limit := 1, paths := [[]], costs := [⊤] }).popped.length = 1 ∧
      ∀ pr ∈ (runRound [] cexParams (fun _ => (0 : ℝ))
          { limit := 1, paths := [[]], costs := [⊤] }).popped,
        pr.2 ≠ BranchTag.app := by
  have h := c3_amended_rounds_no_append_redequeue [] cexParams (fun _ => (0 : ℝ))
    { limit := 1, paths := [[]], costs := [⊤] } (by simp) (by simp)
  simpa using h

/-! Invariants of the whole search. -/

lemma searchRec_inv (pool : List Point) (params : TreeSearchParams) (cost : Path → ℝ)
    {K : ℕ} :
    ∀ (n : ℕ) (q : PathQueue), q.limit = K → q.costs.length = q.paths.length →
      q.paths.length ≤ K → 1 ≤ q.paths.length →
      (searchRec pool params cost n q).1.limit = K ∧
        (searchRec pool params cost n q).1.costs.length =
          (searchRec pool params cost n q).1.paths.length ∧
        (searchRec pool params cost n q).1.paths.length ≤ K ∧
        1 ≤ (searchRec pool params cost n q).1.paths.length ∧
        ∀ ro ∈ (searchRec pool params cost n q).2,
          (∀ qq ∈ ro.out.qsAtPop, qq.limit = K ∧ qq.paths.length ≤ K ∧ qq.paths ≠ []) ∧
          ∀ qq ∈ ro.out.qs, qq.limit = K ∧ qq.paths.length ≤ K := by
  intro n
  induction n with
  | zero =>
    intro q h1 h2 h3 h4
    exact ⟨h1, h2, h3, h4, by simp [searchRec]⟩
  | succ n ih =>
    intro q h1 h2 h3 h4
    have hround := runRound_inv pool params cost q (by rw [h1]; exact h3) h2
    obtain ⟨r1, r2, r3, r4, r5, r6, r7, r8, r9, r10, r11⟩ := hround
    have hKlim : (runRound pool params cost q).q.limit = K := r1.trans h1
    have hbound : (runRound pool params cost q).q.paths.length ≤ K := by
      rw [h1] at r4
      exact r4
    have hge1 : 1 ≤ (runRound pool params cost q).q.paths.length := le_trans h4 r5
    have hhead :
        (∀ qq ∈ (runRound pool params cost q).qsAtPop,
            qq.limit = K ∧ qq.paths.length ≤ K ∧ qq.paths ≠ []) ∧
        ∀ qq ∈ (runRound pool params cost q).qs,
            qq.limit = K ∧ qq.paths.length ≤ K := by
      constructor
      · intro qq hqq
        obtain ⟨ha, hb, hc⟩ := r11 qq hqq
        rw [h1] at ha hb
        refine ⟨ha, hb, ?_⟩
        exact List.length_pos.mp (lt_of_lt_of_le h4 hc)
      · intro qq hqq
        obtain ⟨ha, hb⟩ := r10 qq hqq
        rw [h1] at ha hb
        exact ⟨ha, hb⟩
    simp only [searchRec]
    split_ifs with hacc
    · have hrec := ih (runRound pool params cost q).q hKlim r2 hbound hge1
      refine ⟨hrec.1, hrec.2.1, hrec.2.2.1, hrec.2.2.2.1, ?_⟩
      intro ro hro
      rcases List.mem_cons.mp hro with hro | hro
      · rw [hro]
        exact hhead
      · exact hrec.2.2.2.2 ro hro
    · refine ⟨hKlim, r2, hbound, hge1, ?_⟩
      intro ro hro
      rw [List.mem_singleton.mp hro]
      exact hhead

lemma initialQueue_spec (params : TreeSearchParams) (h : 1 ≤ params.path_queue_limit) :
    initialQueue params =
      { limit := params.path_queue_limit, paths := [[]], costs := [⊤] } := by
  unfold initialQueue addNewPath
  rw [if_neg (by simp only [List.length_nil]; omega)]
  rfl

lemma addNewPath_len_bound (q : PathQueue) (p : Path) (c : EReal)
    (h : q.paths.length ≤ q.limit) : (addNewPath q p c).1.paths.length ≤ q.limit := by
  unfold addNewPath
  split_ifs with h1 h2 <;> simp
  · exact h
  · exact h
  · omega

/-- C5: with path_queue_limit at least 1, the frontier's size is at
most path_queue_limit at every observable point during the search, and
no call of addNewPath on a within-capacity frontier ever grows it past
its capacity. -/
theorem c5_frontier_size_bounded (pool : List Point) (params : TreeSearchParams)
    (cost : Path → ℝ) (h : 1 ≤ params.path_queue_limit) :
    (∀ qq ∈ searchQueues pool params cost, qq.paths.length ≤ params.path_queue_limit) ∧
      ∀ (q : PathQueue) (p : Path) (c : EReal), q.paths.length ≤ q.limit →
        (addNewPath q p c).1.paths.length ≤ q.limit := by
  have hinit := initialQueue_spec params h
  have hfacts := searchRec_inv pool params cost (K := params.path_queue_limit)
    params.max_search_iterations (initialQueue params)
    (by rw [hinit]) (by rw [hinit]; rfl) (by rw [hinit]; simpa using h)
    (by rw [hinit]; simp)
  constructor
  · intro qq hqq
    unfold searchQueues at hqq
    rcases List.mem_cons.mp hqq with hqq | hqq
    · rw [hqq, hinit]
      simpa using h
    · obtain ⟨l, hl, hql⟩ := List.mem_flatten.mp hqq
      obtain ⟨ro, hro, rfl⟩ := List.mem_map.mp hl
      have hro2 := hfacts.2.2.2.2 ro (by
        unfold getPathSearch at hro
        exact hro)
      rcases List.mem_append.mp hql with hql | hql
      · exact (hro2.1 qq hql).2.1
      · exact (hro2.2 qq hql).2
  · exact fun q p c hq => addNewPath_len_bound q p c hq

/-- C5 witness: the bound holds for the concrete run on the empty cone
set with capacity 2. -/
theorem c5_witness :
    (∀ qq ∈ searchQueues [] cexParams (fun _ => (0 : ℝ)),
        qq.paths.length ≤ cexParams.path_queue_limit) ∧
      ∀ (q : PathQueue) (p : Path) (c : EReal), q.paths.length ≤ q.limit →
        (addNewPath q p c).1.paths.length ≤ q.limit :=
  c5_frontier_size_bounded [] cexParams (fun _ => (0 : ℝ)) (by show (1 : ℕ) ≤ 2; omega)

/-- C10: with path_queue_limit at least 1, the frontier is non-empty at
every dequeue performed inside getPath's round loop, and the final
best-path index returned by getBestPath addresses an existing entry of
the final frontier. -/
theorem c10_dequeue_and_best_index_safe (pool : List Point) (params : TreeSearchParams)
    (cost : Path → ℝ) (h : 1 ≤ params.path_queue_limit) :
    (∀ qq ∈ searchPopQueues pool params cost, qq.paths ≠ []) ∧
      getBestPath (getPathSearch pool params cost).1 <
        (getPathSearch pool params cost).1.paths.length := by
  have hinit := initialQueue_spec params h
  have hfacts := searchRec_inv pool params cost (K := params.path_queue_limit)
    params.max_search_iterations (initialQueue params)
    (by rw [hinit]) (by rw [hinit]; rfl) (by rw [hinit]; simpa using h)
    (by rw [hinit]; simp)
  constructor
  · intro qq hqq
    unfold searchPopQueues at hqq
    obtain ⟨l, hl, hql⟩ := List.mem_flatten.mp hqq
    obtain ⟨ro, hro, rfl⟩ := List.mem_map.mp hl
    have hro2 := hfacts.2.2.2.2 ro (by
      unfold getPathSearch at hro
      exact hro)
    exact (hro2.1 qq hql).2.2
  · have hces : (getPathSearch pool params cost).1.costs.length =
        (getPathSearch pool params cost).1.paths.length := by
      unfold getPathSearch
      exact hfacts.2.1
    have hlen : 1 ≤ (getPathSearch pool params cost).1.paths.length := by
      unfold getPathSearch
      exact hfacts.2.2.2.1
    have hcne : (getPathSearch pool params cost).1.costs ≠ [] := by
      intro hc
      rw [hc] at hces
      simp only [List.length_nil] at hces
      omega
    have := bestAux_lt_length (getPathSearch pool params cost).1.costs hcne
    unfold getBestPath
    omega

/-- C10 witness: safety holds for the concrete run on the empty cone
set with capacity 2. -/
theorem c10_witness :
    (∀ qq ∈ searchPopQueues [] cexParams (fun _ => (0 : ℝ)), qq.paths ≠ []) ∧
      getBestPath (getPathSearch [] cexParams (fun _ => (0 : ℝ))).1 <
        (getPathSearch [] cexParams (fun _ => (0 : ℝ))).1.paths.length :=
  c10_dequeue_and_best_index_safe [] cexParams (fun _ => (0 : ℝ))
    (by show (1 : ℕ) ≤ 2; omega)

/-! Claim C6: degenerate empty input. -/

lemma runRound_empty_pool (params : TreeSearchParams) (cost : Path → ℝ)
    (h : 1 ≤ params.path_queue_limit) :
    (runRound [] params cost
        { limit := params.path_queue_limit, paths := [[]], costs := [⊤] }).q =
        { limit := params.path_queue_limit, paths := [[]], costs := [⊤] } ∧
      (runRound [] params cost
        { limit := params.path_queue_limit, paths := [[]], costs := [⊤] }).accepted = false := by
  have hK : ¬ params.path_queue_limit ≤ 0 := by omega
  constructor <;>
  · unfold runRound
    rw [show List.range ([[]] : List Path).length = [0] from rfl]
    rw [List.foldl_cons, List.foldl_nil]
    simp only [roundBody, List.headD_cons, List.tail_cons, List.length_nil, Nat.not_lt_zero,
      if_false, filterLocal, List.filter_nil, branchFold, List.length_nil, List.range_zero,
      List.foldl_nil, Bool.false_eq_true, if_false, addNewPathTag, List.length_nil, hK,
      if_false, List.nil_append]

lemma searchRec_empty_pool (params : TreeSearchParams) (cost : Path → ℝ)
    (h : 1 ≤ params.path_queue_limit) :
    ∀ n, (searchRec [] params cost n
        { limit := params.path_queue_limit, paths := [[]], costs := [⊤] }).1 =
      { limit := params.path_queue_limit, paths := [[]], costs := [⊤] } := by
  intro n
  cases n with
  | zero => rfl
  | succ n =>
    have hrr := runRound_empty_pool params cost h
    simp only [searchRec, hrr.2, Bool.false_eq_true, if_false, hrr.1]

/-- C6: with zero cones the constructor generates zero waypoints and
getPath returns the degenerate empty root path rather than failing. -/
theorem c6_empty_input (params : TreeSearchParams) (cost : Path → ℝ)
    (h : 1 ≤ params.path_queue_limit) :
    (TreeSearch.init [] params).waypoints = [] ∧
      TreeSearch.getPath (TreeSearch.init [] params) cost = [] := by
  constructor
  · rfl
  · show getPathOn [] params cost = []
    unfold getPathOn getPathSearch
    rw [initialQueue_spec params h, searchRec_empty_pool params cost h]
    have hbest : getBestPath
        { limit := params.path_queue_limit, paths := [[]], costs := [⊤] } = 0 := by
      unfold getBestPath bestAux
      rw [show List.range ([(⊤ : EReal)].length) = [0] from rfl]
      simp
    simp only [hbest]
    rfl

/-- C6 witness: the concrete empty run with the counterexample
parameter set. -/
theorem c6_witness :
    (TreeSearch.init [] cexParams).waypoints = [] ∧
      TreeSearch.getPath (TreeSearch.init [] cexParams) (fun _ => (0 : ℝ)) = [] :=
  c6_empty_input cexParams (fun _ => (0 : ℝ)) (by show (1 : ℕ) ≤ 2; omega)

/-! Arithmetic facts about sqrt 2 used by the concrete evaluation of
the waypoint generator on the cone at the origin. -/

lemma sqrt2_sq : Real.sqrt 2 ^ 2 = 2 := Real.sq_sqrt (by norm_num)

lemma one_lt_sqrt2 : (1 : ℝ) < Real.sqrt 2 :=
  lt_sqrt_of_sq_lt (by norm_num) (by norm_num)

lemma sqrt2_le_32 : Real.sqrt 2 ≤ 3 / 2 :=
  sqrt_le_of_sq_le (by norm_num) (by norm_num)

lemma two_sub_sqrt2_nonneg : (0 : ℝ) ≤ 2 - Real.sqrt 2 := by
  have := sqrt2_le_32
  linarith

lemma sqrt_two_sub_le_one : Real.sqrt (2 - Real.sqrt 2) ≤ 1 := by
  apply sqrt_le_of_sq_le (by norm_num)
  have := one_lt_sqrt2
  nlinarith

lemma sqrt_sub_lt_sqrt_add :
    Real.sqrt (2 - Real.sqrt 2) < Real.sqrt (2 + Real.sqrt 2) := by
  apply Real.sqrt_lt_sqrt two_sub_sqrt2_nonneg
  have := one_lt_sqrt2
  linarith

/-- Each unit-circle candidate is at distance exactly 1 from the cone
set consisting of the single origin cone. -/
lemma coneDist_unit (x y : ℝ) (h : ((0 : ℝ) - x) ^ 2 + ((0 : ℝ) - y) ^ 2 = 1) :
    getDistNearestCone x y [{ x := 0, y := 0 }] = some 1 := by
  simp only [getDistNearestCone, coneDistStep, List.foldl_cons, List.foldl_nil]
  rw [h, Real.sqrt_one]

lemma optGT_half : optGT (some 1) (1 / 2 : ℝ) := by
  simp only [optGT]
  norm_num

/-! The eight triangulation steps on the origin cone with unit radius,
cone threshold 1/2 and waypoint threshold 1. -/

lemma triCexStep0 (params : TreeSearchParams)
    (h1 : params.triangulation_radius = 1)
    (h2 : params.triangulation_min_cone_dist = 1 / 2)
    (h3 : params.triangulation_min_waypoint_dist = 1) :
    triStep [{ x := 0, y := 0 }] params { x := 0, y := 0 } [] 0 = [pt0] := by
  have hx : candX params { x := 0, y := 0 } 0 = 1 := by
    simp [candX, h1, Real.cos_zero]
  have hy : candY params { x := 0, y := 0 } 0 = 0 := by
    simp [candY, h1, Real.sin_zero]
  unfold triStep
  rw [hx, hy, h2, h3, coneDist_unit 1 0 (by norm_num)]
  have hdw : minDistFold 1 0 [] = none := rfl
  rw [hdw]
  rw [if_pos ⟨optGT_half, trivial⟩]
  rfl

lemma triCexStep1 (params : TreeSearchParams)
    (h1 : params.triangulation_radius = 1)
    (h2 : params.triangulation_min_cone_dist = 1 / 2)
    (h3 : params.triangulation_min_waypoint_dist = 1) :
    triStep [{ x := 0, y := 0 }] params { x := 0, y := 0 } [pt0] 1 = [pt0] := by
  have hx : candX params { x := 0, y := 0 } 1 = Real.sqrt 2 / 2 := by
    simp [candX, h1, Real.cos_pi_div_four]
  have hy : candY params { x := 0, y := 0 } 1 = Real.sqrt 2 / 2 := by
    simp [candY, h1, Real.sin_pi_div_four]
  unfold triStep
  rw [hx, hy, h2, h3]
  rw [coneDist_unit (Real.sqrt 2 / 2) (Real.sqrt 2 / 2) (by linear_combination sqrt2_sq / 2)]
  have hdw : minDistFold (Real.sqrt 2 / 2) (Real.sqrt 2 / 2) [pt0] =
      some (Real.sqrt (2 - Real.sqrt 2)) := by
    simp only [minDistFold, minDistStep, pt0, List.foldl_cons, List.foldl_nil]
    rw [show ((1 : ℝ) - Real.sqrt 2 / 2) ^ 2 + ((0 : ℝ) - Real.sqrt 2 / 2) ^ 2 =
      2 - Real.sqrt 2 from by linear_combination sqrt2_sq / 2]
  rw [hdw]
  rw [if_neg]
  intro hc
  have := hc.2
  simp only [optGT] at this
  exact absurd this (not_lt.mpr sqrt_two_sub_le_one)

lemma triCexStep2 (params : TreeSearchParams)
    (h1 : params.triangulation_radius = 1)
    (h2 : params.triangulation_min_cone_dist = 1 / 2)
    (h3 : params.triangulation_min_waypoint_dist = 1) :
    triStep [{ x := 0, y := 0 }] params { x := 0, y := 0 } [pt0] 2 = [pt0, pt2] := by
  have hang : ((2 : ℕ) : ℝ) * (π / 4) = π / 2 := by push_cast; ring
  have hx : candX params { x := 0, y := 0 } 2 = 0 := by
    simp only [candX, h1]
    rw [hang, Real.cos_pi_div_two]
    norm_num
  have hy : candY params { x := 0, y := 0 } 2 = 1 := by
    simp only [candY, h1]
    rw [hang, Real.sin_pi_div_two]
    norm_num
  unfold triStep
  rw [hx, hy, h2, h3, coneDist_unit 0 1 (by norm_num)]
  have hdw : minDistFold 0 1 [pt0] = some (Real.sqrt 2) := by
    simp only [minDistFold, minDistStep, pt0, List.foldl_cons, List.foldl_nil]
    rw [show ((1 : ℝ) - 0) ^ 2 + ((0 : ℝ) - 1) ^ 2 = 2 from by norm_num]
  rw [hdw]
  rw [if_pos ⟨optGT_half, by simp only [optGT]; exact one_lt_sqrt2⟩]
  rfl

lemma triCexStep3 (params : TreeSearchParams)
    (h1 : params.triangulation_radius = 1)
    (h2 : params.triangulation_min_cone_dist = 1 / 2)
    (h3 : params.triangulation_min_waypoint_dist = 1) :
    triStep [{ x := 0, y := 0 }] params { x := 0, y := 0 } [pt0, pt2] 3 = [pt0, pt2] := by
  have hang : ((3 : ℕ) : ℝ) * (π / 4) = π / 2 + π / 4 := by push_cast; ring
  have hx : candX params { x := 0, y := 0 } 3 = -(Real.sqrt 2 / 2) := by
    simp only [candX, h1]
    rw [hang, Real.cos_add, Real.cos_pi_div_two, Real.sin_pi_div_two, Real.cos_pi_div_four,
      Real.sin_pi_div_four]
    ring
  have hy : candY params { x := 0, y := 0 } 3 = Real.sqrt 2 / 2 := by
    simp only [candY, h1]
    rw [hang, Real.sin_add, Real.cos_pi_div_two, Real.sin_pi_div_two, Real.cos_pi_div_four,
      Real.sin_pi_div_four]
    ring
  unfold triStep
  rw [hx, hy, h2, h3]
  rw [coneDist_unit (-(Real.sqrt 2 / 2)) (Real.sqrt 2 / 2) (by linear_combination sqrt2_sq / 2)]
  have hdw : minDistFold (-(Real.sqrt 2 / 2)) (Real.sqrt 2 / 2) [pt0, pt2] =
      some (Real.sqrt (2 - Real.sqrt 2)) := by
    simp only [minDistFold, minDistStep, pt0, pt2, List.foldl_cons, List.foldl_nil]
    rw [show ((1 : ℝ) - -(Real.sqrt 2 / 2)) ^ 2 + ((0 : ℝ) - Real.sqrt 2 / 2) ^ 2 =
      2 + Real.sqrt 2 from by linear_combination sqrt2_sq / 2]
    rw [show ((0 : ℝ) - -(Real.sqrt 2 / 2)) ^ 2 + ((1 : ℝ) - Real.sqrt 2 / 2) ^ 2 =
      2 - Real.sqrt 2 from by linear_combination sqrt2_sq / 2]
    rw [if_pos sqrt_sub_lt_sqrt_add]
  rw [hdw]
  rw [if_neg]
  intro hc
  have := hc.2
  simp only [optGT] at this
  exact absurd this (not_lt.mpr sqrt_two_sub_le_one)

lemma triCexStep4 (params : TreeSearchParams)
    (h1 : params.triangulation_radius = 1)
    (h2 : params.triangulation_min_cone_dist = 1 / 2)
    (h3 : params.triangulation_min_waypoint_dist = 1) :
    triStep [{ x := 0, y := 0 }] params { x := 0, y := 0 } [pt0, pt2] 4 = [pt0, pt2, pt4] := by
  have hang : ((4 : ℕ) : ℝ) * (π / 4) = π := by push_cast; ring
  have hx : candX params { x := 0, y := 0 } 4 = -1 := by
    simp only [candX, h1]
    rw [hang, Real.cos_pi]
    norm_num
  have hy : candY params { x := 0, y := 0 } 4 = 0 := by
    simp only [candY, h1]
    rw [hang, Real.sin_pi]
    norm_num
  unfold triStep
  rw [hx, hy, h2, h3, coneDist_unit (-1) 0 (by norm_num)]
  have hdw : minDistFold (-1) 0 [pt0, pt2] = some (Real.sqrt 2) := by
    simp only [minDistFold, minDistStep, pt0, pt2, List.foldl_cons, List.foldl_nil]
    rw [show ((1 : ℝ) - -1) ^ 2 + ((0 : ℝ) - 0) ^ 2 = 4 from by norm_num]
    rw [show ((0 : ℝ) - -1) ^ 2 + ((1 : ℝ) - 0) ^ 2 = 2 from by norm_num]
    rw [if_pos (Real.sqrt_lt_sqrt (by norm_num) (by norm_num))]
  rw [hdw]
  rw [if_pos ⟨optGT_half, by simp only [optGT]; exact one_lt_sqrt2⟩]
  rfl

lemma triCexStep5 (params : TreeSearchParams)
    (h1 : params.triangulation_radius = 1)
    (h2 : params.triangulation_min_cone_dist = 1 / 2)
    (h3 : params.triangulation_min_waypoint_dist = 1) :
    triStep [{ x := 0, y := 0 }] params { x := 0, y := 0 } [pt0, pt2, pt4] 5 = [pt0, pt2, pt4] := by
  have hang : ((5 : ℕ) : ℝ) * (π / 4) = π + π / 4 := by push_cast; ring
  have hx : candX params { x := 0, y := 0 } 5 = -(Real.sqrt 2 / 2) := by
    simp only [candX, h1]
    rw [hang, Real.cos_add, Real.cos_pi, Real.sin_pi, Real.cos_pi_div_four,
      Real.sin_pi_div_four]
    ring
  have hy : candY params { x := 0, y := 0 } 5 = -(Real.sqrt 2 / 2) := by
    simp only [candY, h1]
    rw [hang, Real.sin_add, Real.cos_pi, Real.sin_pi, Real.cos_pi_div_four,
      Real.sin_pi_div_four]
    ring
  unfold triStep
  rw [hx, hy, h2, h3]
  rw [coneDist_unit (-(Real.sqrt 2 / 2)) (-(Real.sqrt 2 / 2))
    (by linear_combination sqrt2_sq / 2)]
  have hdw : minDistFold (-(Real.sqrt 2 / 2)) (-(Real.sqrt 2 / 2)) [pt0, pt2, pt4] =
      some (Real.sqrt (2 - Real.sqrt 2)) := by
    simp only [minDistFold, minDistStep, pt0, pt2, List.foldl_cons, List.foldl_nil]
    rw [show ((1 : ℝ) - -(Real.sqrt 2 / 2)) ^ 2 + ((0 : ℝ) - -(Real.sqrt 2 / 2)) ^ 2 =
      2 + Real.sqrt 2 from by linear_combination sqrt2_sq / 2]
    rw [show ((0 : ℝ) - -(Real.sqrt 2 / 2)) ^ 2 + ((1 : ℝ) - -(Real.sqrt 2 / 2)) ^ 2 =
      2 + Real.sqrt 2 from by linear_combination sqrt2_sq / 2]
    rw [if_neg (lt_irrefl _)]
    simp only [minDistStep, pt4]
    rw [show ((-1 : ℝ) - -(Real.sqrt 2 / 2)) ^ 2 + ((0 : ℝ) - -(Real.sqrt 2 / 2)) ^ 2 =
      2 - Real.sqrt 2 from by linear_combination sqrt2_sq / 2]
    rw [if_pos sqrt_sub_lt_sqrt_add]
  rw [hdw]
  rw [if_neg]
  intro hc
  have := hc.2
  simp only [optGT] at this
  exact absurd this (not_lt.mpr sqrt_two_sub_le_one)

lemma triCexStep6 (params : TreeSearchParams)
    (h1 : params.triangulation_radius = 1)
    (h2 : params.triangulation_min_cone_dist = 1 / 2)
    (h3 : params.triangulation_min_waypoint_dist = 1) :
    triStep [{ x := 0, y := 0 }] params { x := 0, y := 0 } [pt0, pt2, pt4] 6 = [pt0, pt2, pt4, pt6] := by
  have hang : ((6 : ℕ) : ℝ) * (π / 4) = π + π / 2 := by push_cast; ring
  have hx : candX params { x := 0, y := 0 } 6 = 0 := by
    simp only [candX, h1]
    rw [hang, Real.cos_add, Real.cos_pi, Real.sin_pi, Real.cos_pi_div_two,
      Real.sin_pi_div_two]
    ring
  have hy : candY params { x := 0, y := 0 } 6 = -1 := by
    simp only [candY, h1]
    rw [hang, Real.sin_add, Real.cos_pi, Real.sin_pi, Real.cos_pi_div_two,
      Real.sin_pi_div_two]
    ring
  unfold triStep
  rw [hx, hy, h2, h3, coneDist_unit 0 (-1) (by norm_num)]
  have hdw : minDistFold 0 (-1) [pt0, pt2, pt4] = some (Real.sqrt 2) := by
    simp only [minDistFold, minDistStep, pt0, pt2, List.foldl_cons, List.foldl_nil]
    rw [show ((1 : ℝ) - 0) ^ 2 + ((0 : ℝ) - -1) ^ 2 = 2 from by norm_num]
    rw [show ((0 : ℝ) - 0) ^ 2 + ((1 : ℝ) - -1) ^ 2 = 4 from by norm_num]
    rw [if_neg (not_lt.mpr (Real.sqrt_le_sqrt (by norm_num)))]
    simp only [minDistStep, pt4]
    rw [show ((-1 : ℝ) - 0) ^ 2 + ((0 : ℝ) - -1) ^ 2 = 2 from by norm_num]
    rw [if_neg (lt_irrefl _)]
  rw [hdw]
  rw [if_pos ⟨optGT_half, by simp only [optGT]; exact one_lt_sqrt2⟩]
  rfl

lemma triCexStep7 (params : TreeSearchParams)
    (h1 : params.triangulation_radius = 1)
    (h2 : params.triangulation_min_cone_dist = 1 / 2)
    (h3 : params.triangulation_min_waypoint_dist = 1) :
    triStep [{ x := 0, y := 0 }] params { x := 0, y := 0 } [pt0, pt2, pt4, pt6] 7 =
      [pt0, pt2, pt4, pt6] := by
  have hang : ((7 : ℕ) : ℝ) * (π / 4) = 2 * π - π / 4 := by push_cast; ring
  have hx : candX params { x := 0, y := 0 } 7 = Real.sqrt 2 / 2 := by
    simp only [candX, h1]
    rw [hang, Real.cos_sub, Real.cos_two_pi, Real.sin_two_pi, Real.cos_pi_div_four,
      Real.sin_pi_div_four]
    ring
  have hy : candY params { x := 0, y := 0 } 7 = -(Real.sqrt 2 / 2) := by
    simp only [candY, h1]
    rw [hang, Real.sin_sub, Real.cos_two_pi, Real.sin_two_pi, Real.cos_pi_div_four,
      Real.sin_pi_div_four]
    ring
  unfold triStep
  rw [hx, hy, h2, h3]
  rw [coneDist_unit (Real.sqrt 2 / 2) (-(Real.sqrt 2 / 2))
    (by linear_combination sqrt2_sq / 2)]
  have hdw : minDistFold (Real.sqrt 2 / 2) (-(Real.sqrt 2 / 2)) [pt0, pt2, pt4, pt6] =
      some (Real.sqrt (2 - Real.sqrt 2)) := by
    simp only [minDistFold, minDistStep, pt0, pt2, List.foldl_cons, List.foldl_nil]
    rw [show ((1 : ℝ) - Real.sqrt 2 / 2) ^ 2 + ((0 : ℝ) - -(Real.sqrt 2 / 2)) ^ 2 =
      2 - Real.sqrt 2 from by linear_combination sqrt2_sq / 2]
    rw [show ((0 : ℝ) - Real.sqrt 2 / 2) ^ 2 + ((1 : ℝ) - -(Real.sqrt 2 / 2)) ^ 2 =
      2 + Real.sqrt 2 from by linear_combination sqrt2_sq / 2]
    rw [if_neg (not_lt.mpr (le_of_lt sqrt_sub_lt_sqrt_add))]
    simp only [minDistStep, pt4]
    rw [show ((-1 : ℝ) - Real.sqrt 2 / 2) ^ 2 + ((0 : ℝ) - -(Real.sqrt 2 / 2)) ^ 2 =
      2 + Real.sqrt 2 from by linear_combination sqrt2_sq / 2]
    rw [if_neg (not_lt.mpr (le_of_lt sqrt_sub_lt_sqrt_add))]
    simp only [minDistStep, pt6]
    rw [show ((0 : ℝ) - Real.sqrt 2 / 2) ^ 2 + ((-1 : ℝ) - -(Real.sqrt 2 / 2)) ^ 2 =
      2 - Real.sqrt 2 from by linear_combination sqrt2_sq / 2]
    rw [if_neg (lt_irrefl _)]
  rw [hdw]
  rw [if_neg]
  intro hc
  have := hc.2
  simp only [optGT] at this
  exact absurd this (not_lt.mpr sqrt_two_sub_le_one)

/-- On the single origin cone with unit ring radius, cone threshold 1/2
and waypoint threshold 1, triangulate generates exactly the four
axis-aligned unit points, in ring order. -/
lemma triangulate_cex (params : TreeSearchParams)
    (h1 : params.triangulation_radius = 1)
    (h2 : params.triangulation_min_cone_dist = 1 / 2)
    (h3 : params.triangulation_min_waypoint_dist = 1) :
    triangulate cexCones params = [pt0, pt2, pt4, pt6] := by
  unfold triangulate
  simp only [cexCones, List.foldl_cons, List.foldl_nil]
  rw [show List.range 8 = [0, 1, 2, 3, 4, 5, 6, 7] from rfl]
  simp only [List.foldl_cons, List.foldl_nil]
  rw [triCexStep0 params h1 h2 h3, triCexStep1 params h1 h2 h3, triCexStep2 params h1 h2 h3,
    triCexStep3 params h1 h2 h3, triCexStep4 params h1 h2 h3, triCexStep5 params h1 h2 h3,
    triCexStep6 params h1 h2 h3, triCexStep7 params h1 h2 h3]

/-! The constructor pipeline on the concrete single-cone input. -/

lemma cone_filter_cex : filterLocalCones cexCones (2 * π) 100 0 0 0 = cexCones := by
  unfold filterLocalCones cexCones
  simp only [List.filter_cons, List.filter_nil, decide_eq_true_eq]
  rw [if_pos ((accepts_two_pi 100 0 0 0 0).mpr
    (sqrt_le_of_sq_le (by norm_num) (by norm_num)))]

/-- The constructed TreeSearch object on the single origin cone holds
exactly the four-point pool. -/
lemma cex_waypoints :
    (TreeSearch.init cexCones cexParams).waypoints = [pt0, pt2, pt4, pt6] := by
  show triangulate (filterLocalCones cexCones cexParams.field_of_view cexParams.distance 0 0 0)
    cexParams = [pt0, pt2, pt4, pt6]
  rw [show cexParams.field_of_view = 2 * π from rfl, show cexParams.distance = 100 from rfl,
    cone_filter_cex]
  exact triangulate_cex cexParams rfl rfl rfl

/-- The constructed TreeSearch object with capacity 10 holds the same
pool. -/
lemma cex2_waypoints :
    (TreeSearch.init cexCones cex2Params).waypoints = [pt0, pt2, pt4, pt6] := by
  show triangulate (filterLocalCones cexCones cex2Params.field_of_view cex2Params.distance 0 0 0)
    cex2Params = [pt0, pt2, pt4, pt6]
  rw [show cex2Params.field_of_view = 2 * π from rfl, show cex2Params.distance = 100 from rfl,
    cone_filter_cex]
  exact triangulate_cex cex2Params rfl rfl rfl

/-! Visibility of the pool from the poses reached in the concrete run. -/

lemma filter_pool_origin :
    filterLocal [pt0, pt2, pt4, pt6] (2 * π) (3 / 2) 0 0 0 = [pt0, pt2, pt4, pt6] := by
  unfold filterLocal
  simp only [List.filter_cons, List.filter_nil, decide_eq_true_eq, pt0, pt2, pt4, pt6]
  rw [if_pos ((accepts_two_pi (3 / 2) 0 0 1 0).mpr
        (sqrt_le_of_sq_le (by norm_num) (by norm_num))),
    if_pos ((accepts_two_pi (3 / 2) 0 0 0 1).mpr
        (sqrt_le_of_sq_le (by norm_num) (by norm_num))),
    if_pos ((accepts_two_pi (3 / 2) 0 0 (-1) 0).mpr
        (sqrt_le_of_sq_le (by norm_num) (by norm_num))),
    if_pos ((accepts_two_pi (3 / 2) 0 0 0 (-1)).mpr
        (sqrt_le_of_sq_le (by norm_num) (by norm_num)))]

lemma filter_pool_pt0 :
    filterLocal [pt0, pt2, pt4, pt6] (2 * π) (3 / 2) 1 0 0 = [pt0, pt2, pt6] := by
  unfold filterLocal
  simp only [List.filter_cons, List.filter_nil, decide_eq_true_eq, pt0, pt2, pt4, pt6]
  rw [if_pos ((accepts_two_pi (3 / 2) 1 0 1 0).mpr
        (sqrt_le_of_sq_le (by norm_num) (by norm_num))),
    if_pos ((accepts_two_pi (3 / 2) 1 0 0 1).mpr
        (sqrt_le_of_sq_le (by norm_num) (by norm_num))),
    if_neg (fun hc => absurd ((accepts_two_pi (3 / 2) 1 0 (-1) 0).mp hc)
        (not_le.mpr (lt_sqrt_of_sq_lt (by norm_num) (by norm_num)))),
    if_pos ((accepts_two_pi (3 / 2) 1 0 0 (-1)).mpr
        (sqrt_le_of_sq_le (by norm_num) (by norm_num)))]

lemma filter_pool_pt4 :
    filterLocal [pt0, pt2, pt4, pt6] (2 * π) (3 / 2) (-1) 0 0 = [pt2, pt4, pt6] := by
  unfold filterLocal
  simp only [List.filter_cons, List.filter_nil, decide_eq_true_eq, pt0, pt2, pt4, pt6]
  rw [if_neg (fun hc => absurd ((accepts_two_pi (3 / 2) (-1) 0 1 0).mp hc)
        (not_le.mpr (lt_sqrt_of_sq_lt (by norm_num) (by norm_num)))),
    if_pos ((accepts_two_pi (3 / 2) (-1) 0 0 1).mpr
        (sqrt_le_of_sq_le (by norm_num) (by norm_num))),
    if_pos ((accepts_two_pi (3 / 2) (-1) 0 (-1) 0).mpr
        (sqrt_le_of_sq_le (by norm_num) (by norm_num))),
    if_pos ((accepts_two_pi (3 / 2) (-1) 0 0 (-1)).mpr
        (sqrt_le_of_sq_le (by norm_num) (by norm_num)))]

/-! Values of the concrete cost oracle on the paths reached. -/

lemma wpPath_ne_1 : ([wp0, wp2] : Path) ≠ [wp0] := by simp
lemma wpPath_ne_2 : ([wp0, wp2] : Path) ≠ [wp2] := by
  simp [wp0, wp2]
lemma wpPath_ne_3 : ([wp0, wp4] : Path) ≠ [wp0] := by simp
lemma wpPath_ne_4 : ([wp0, wp4] : Path) ≠ [wp2] := by simp
lemma wpPath_ne_5 : ([wp0, wp4] : Path) ≠ [wp0, wp2] := by
  intro h
  injection h with h1 h2
  injection h2 with h3 h4
  rw [show wp4 = { x := -1, y := 0, heading := 0 } from rfl,
    show wp2 = { x := 0, y := 1, heading := 0 } from rfl] at h3
  injection h3 with hx hy hh
  exact absurd hx (by norm_num)

lemma cex3Cost_wp0 : cex3Cost [wp0] = 10 := by
  unfold cex3Cost
  rw [if_pos rfl]

lemma cex3Cost_wp2 : cex3Cost [wp2] = 20 := by
  unfold cex3Cost
  rw [if_neg (by norm_num [wp0, wp2]), if_pos rfl]

lemma cex3Cost_wp4 : cex3Cost [wp4] = 30 := by
  unfold cex3Cost
  rw [if_neg (by norm_num [wp0, wp4]), if_neg (by norm_num [wp2, wp4]),
    if_neg (by norm_num), if_neg (by norm_num), if_pos rfl]

lemma cex3Cost_wp6 : cex3Cost [wp6] = 30 := by
  unfold cex3Cost
  rw [if_neg (by norm_num [wp0, wp6]), if_neg (by norm_num [wp2, wp6]),
    if_neg (by norm_num), if_neg (by norm_num), if_neg (by norm_num [wp4, wp6]), if_pos rfl]

lemma cex3Cost_wp02 : cex3Cost [wp0, wp2] = 15 := by
  unfold cex3Cost
  rw [if_neg wpPath_ne_1, if_neg wpPath_ne_2, if_pos rfl]

lemma cex3Cost_wp04 : cex3Cost [wp0, wp4] = 12 := by
  unfold cex3Cost
  rw [if_neg wpPath_ne_3, if_neg wpPath_ne_4, if_neg wpPath_ne_5, if_pos rfl]

lemma cex3Cost_wp040 : cex3Cost [wp0, wp4, wp0] = 300 := by
  unfold cex3Cost
  rw [if_neg (by simp), if_neg (by simp), if_neg (by simp), if_neg (by simp),
    if_neg (by simp), if_neg (by simp)]
  norm_num

lemma cex3Cost_wp044 : cex3Cost [wp0, wp4, wp4] = 300 := by
  unfold cex3Cost
  rw [if_neg (by simp), if_neg (by simp), if_neg (by simp), if_neg (by simp),
    if_neg (by simp), if_neg (by simp)]
  norm_num

/-! Evaluating the worst-scan on two-element cost lists. -/

lemma worstAux_pair (a b : EReal) : worstAux [a, b] = if a < b then 1 else 0 := by
  unfold worstAux
  rw [show List.range (List.length [a, b]) = [0, 1] from rfl]
  simp only [List.foldl_cons, List.foldl_nil]
  rw [if_neg (lt_irrefl ([a, b].getD 0 (0 : EReal)))]
  rw [show ([a, b].getD 0 (0 : EReal)) = a from rfl,
    show ([a, b].getD 1 (0 : EReal)) = b from rfl]

/-! Round 1 of the concrete search: expanding the root path over the
four visible candidates. -/

lemma qb_worst :
    getWorstPath
      { limit := 2, paths := [[wp0], [wp2]],
        costs := [((10 : ℝ) : EReal), ((20 : ℝ) : EReal)] } = 1 := by
  unfold getWorstPath
  rw [worstAux_pair, if_pos (by exact_mod_cast (by norm_num : (10 : ℝ) < 20))]

lemma add_nil_wp0 :
    addNewPathTag { limit := 2, paths := [], costs := [] } [] [wp0]
      ((10 : ℝ) : EReal) BranchTag.app BranchTag.rep =
    ({ limit := 2, paths := [[wp0]], costs := [((10 : ℝ) : EReal)] },
      [BranchTag.app], true) := by
  unfold addNewPathTag
  rw [if_neg (by norm_num)]
  rfl

lemma add_qa_wp2 :
    addNewPathTag { limit := 2, paths := [[wp0]], costs := [((10 : ℝ) : EReal)] }
      [BranchTag.app] [wp2] ((20 : ℝ) : EReal) BranchTag.app BranchTag.rep =
    ({ limit := 2, paths := [[wp0], [wp2]],
        costs := [((10 : ℝ) : EReal), ((20 : ℝ) : EReal)] },
      [BranchTag.app, BranchTag.app], true) := by
  unfold addNewPathTag
  rw [if_neg (by norm_num)]
  rfl

lemma add_qb_wp4 :
    addNewPathTag
      { limit := 2, paths := [[wp0], [wp2]],
        costs := [((10 : ℝ) : EReal), ((20 : ℝ) : EReal)] }
      [BranchTag.app, BranchTag.app] [wp4] ((30 : ℝ) : EReal) BranchTag.app BranchTag.rep =
    ({ limit := 2, paths := [[wp0], [wp2]],
        costs := [((10 : ℝ) : EReal), ((20 : ℝ) : EReal)] },
      [BranchTag.app, BranchTag.app], false) := by
  unfold addNewPathTag
  rw [if_pos (by norm_num), qb_worst]
  rw [show ({ limit := 2, paths := [[wp0], [wp2]],
              costs := [((10 : ℝ) : EReal), ((20 : ℝ) : EReal)] } :
        PathQueue).costs.getD 1 0 = ((20 : ℝ) : EReal) from rfl]
  rw [if_neg (show ¬ (((30 : ℝ) : EReal) < ((20 : ℝ) : EReal)) from by
    exact_mod_cast (by norm_num : ¬ ((30 : ℝ) < 20)))]

lemma add_qb_wp6 :
    addNewPathTag
      { limit := 2, paths := [[wp0], [wp2]],
        costs := [((10 : ℝ) : EReal), ((20 : ℝ) : EReal)] }
      [BranchTag.app, BranchTag.app] [wp6] ((30 : ℝ) : EReal) BranchTag.app BranchTag.rep =
    ({ limit := 2, paths := [[wp0], [wp2]],
        costs := [((10 : ℝ) : EReal), ((20 : ℝ) : EReal)] },
      [BranchTag.app, BranchTag.app], false) := by
  unfold addNewPathTag
  rw [if_pos (by norm_num), qb_worst]
  rw [show ({ limit := 2, paths := [[wp0], [wp2]],
              costs := [((10 : ℝ) : EReal), ((20 : ℝ) : EReal)] } :
        PathQueue).costs.getD 1 0 = ((20 : ℝ) : EReal) from rfl]
  rw [if_neg (show ¬ (((30 : ℝ) : EReal) < ((20 : ℝ) : EReal)) from by
    exact_mod_cast (by norm_num : ¬ ((30 : ℝ) < 20)))]

lemma bs1k0 :
    branchStep [pt0, pt2, pt4, pt6] cex3Cost [] [pt0, pt2, pt4, pt6]
      ({ limit := 2, paths := [], costs := [] }, [], false, []) 0 =
    ({ limit := 2, paths := [[wp0]], costs := [((10 : ℝ) : EReal)] }, [BranchTag.app], true,
      [{ limit := 2, paths := [[wp0]], costs := [((10 : ℝ) : EReal)] }]) := by
  simp only [branchStep]
  rw [show List.getD [pt0, pt2, pt4, pt6] 0 { x := 0, y := 0 } = pt0 from rfl]
  rw [if_neg (show ¬ hasWaypoint [] { x := pt0.x, y := pt0.y, heading := 0 } from by
    simp [hasWaypoint])]
  rw [show addWaypoint [] pt0.x pt0.y = [wp0] from rfl]
  rw [cex3Cost_wp0, add_nil_wp0]
  rfl

lemma bs1k1 :
    branchStep [pt0, pt2, pt4, pt6] cex3Cost [] [pt0, pt2, pt4, pt6]
      ({ limit := 2, paths := [[wp0]], costs := [((10 : ℝ) : EReal)] }, [BranchTag.app], true,
        [{ limit := 2, paths := [[wp0]], costs := [((10 : ℝ) : EReal)] }]) 1 =
    ({ limit := 2, paths := [[wp0], [wp2]],
        costs := [((10 : ℝ) : EReal), ((20 : ℝ) : EReal)] },
      [BranchTag.app, BranchTag.app], true,
      [{ limit := 2, paths := [[wp0]], costs := [((10 : ℝ) : EReal)] },
       { limit := 2, paths := [[wp0], [wp2]],
         costs := [((10 : ℝ) : EReal), ((20 : ℝ) : EReal)] }]) := by
  simp only [branchStep]
  rw [show List.getD [pt0, pt2, pt4, pt6] 1 { x := 0, y := 0 } = pt2 from rfl]
  rw [if_neg (show ¬ hasWaypoint [] { x := pt2.x, y := pt2.y, heading := 0 } from by
    simp [hasWaypoint])]
  rw [show addWaypoint [] pt2.x pt2.y = [wp2] from rfl]
  rw [cex3Cost_wp2, add_qa_wp2]
  rfl

lemma bs1k2 :
    branchStep [pt0, pt2, pt4, pt6] cex3Cost [] [pt0, pt2, pt4, pt6]
      ({ limit := 2, paths := [[wp0], [wp2]],
          costs := [((10 : ℝ) : EReal), ((20 : ℝ) : EReal)] },
        [BranchTag.app, BranchTag.app], true,
        [{ limit := 2, paths := [[wp0]], costs := [((10 : ℝ) : EReal)] },
         { limit := 2, paths := [[wp0], [wp2]],
           costs := [((10 : ℝ) : EReal), ((20 : ℝ) : EReal)] }]) 2 =
    ({ limit := 2, paths := [[wp0], [wp2]],
        costs := [((10 : ℝ) : EReal), ((20 : ℝ) : EReal)] },
      [BranchTag.app, BranchTag.app], true,
      [{ limit := 2, paths := [[wp0]], costs := [((10 : ℝ) : EReal)] },
       { limit := 2, paths := [[wp0], [wp2]],
         costs := [((10 : ℝ) : EReal), ((20 : ℝ) : EReal)] },
       { limit := 2, paths := [[wp0], [wp2]],
         costs := [((10 : ℝ) : EReal), ((20 : ℝ) : EReal)] }]) := by
  simp only [branchStep]
  rw [show List.getD [pt0, pt2, pt4, pt6] 2 { x := 0, y := 0 } = pt4 from rfl]
  rw [if_neg (show ¬ hasWaypoint [] { x := pt4.x, y := pt4.y, heading := 0 } from by
    simp [hasWaypoint])]
  rw [show addWaypoint [] pt4.x pt4.y = [wp4] from rfl]
  rw [cex3Cost_wp4, add_qb_wp4]
  rfl

lemma bs1k3 :
    branchStep [pt0, pt2, pt4, pt6] cex3Cost [] [pt0, pt2, pt4, pt6]
      ({ limit := 2, paths := [[wp0], [wp2]],
          costs := [((10 : ℝ) : EReal), ((20 : ℝ) : EReal)] },
        [BranchTag.app, BranchTag.app], true,
        [{ limit := 2, paths := [[wp0]], costs := [((10 : ℝ) : EReal)] },
         { limit := 2, paths := [[wp0], [wp2]],
           costs := [((10 : ℝ) : EReal), ((20 : ℝ) : EReal)] },
         { limit := 2, paths := [[wp0], [wp2]],
           costs := [((10 : ℝ) : EReal), ((20 : ℝ) : EReal)] }]) 3 =
    ({ limit := 2, paths := [[wp0], [wp2]],
        costs := [((10 : ℝ) : EReal), ((20 : ℝ) : EReal)] },
      [BranchTag.app, BranchTag.app], true,
      [{ limit := 2, paths := [[wp0]], costs := [((10 : ℝ) : EReal)] },
       { limit := 2, paths := [[wp0], [wp2]],
         costs := [((10 : ℝ) : EReal), ((20 : ℝ) : EReal)] },
       { limit := 2, paths := [[wp0], [wp2]],
         costs := [((10 : ℝ) : EReal), ((20 : ℝ) : EReal)] },
       { limit := 2, paths := [[wp0], [wp2]],
         costs := [((10 : ℝ) : EReal), ((20 : ℝ) : EReal)] }]) := by
  simp only [branchStep]
  rw [show List.getD [pt0, pt2, pt4, pt6] 3 { x := 0, y := 0 } = pt6 from rfl]
  rw [if_neg (show ¬ hasWaypoint [] { x := pt6.x, y := pt6.y, heading := 0 } from by
    simp [hasWaypoint])]
  rw [show addWaypoint [] pt6.x pt6.y = [wp6] from rfl]
  rw [cex3Cost_wp6, add_qb_wp6]
  rfl

lemma branchFold_cex1 :
    branchFold [pt0, pt2, pt4, pt6] cex3Cost [] [pt0, pt2, pt4, pt6]
      { limit := 2, paths := [], costs := [] } [] =
    ({ limit := 2, paths := [[wp0], [wp2]],
        costs := [((10 : ℝ) : EReal), ((20 : ℝ) : EReal)] },
      [BranchTag.app, BranchTag.app], true,
      [{ limit := 2, paths := [[wp0]], costs := [((10 : ℝ) : EReal)] },
       { limit := 2, paths := [[wp0], [wp2]],
         costs := [((10 : ℝ) : EReal), ((20 : ℝ) : EReal)] },
       { limit := 2, paths := [[wp0], [wp2]],
         costs := [((10 : ℝ) : EReal), ((20 : ℝ) : EReal)] },
       { limit := 2, paths := [[wp0], [wp2]],
         costs := [((10 : ℝ) : EReal), ((20 : ℝ) : EReal)] }]) := by
  unfold branchFold
  rw [show List.range (List.length [pt0, pt2, pt4, pt6]) = [0, 1, 2, 3] from rfl]
  simp only [List.foldl_cons, List.foldl_nil]
  rw [bs1k0, bs1k1, bs1k2, bs1k3]

lemma roundBody_cex1 :
    roundBody [pt0, pt2, pt4, pt6] cexParams cex3Cost
      { q := { limit := 2, paths := [[]], costs := [⊤] }, tags := [BranchTag.orig],
        accepted := false, popped := [], qsAtPop := [], qs := [] } =
    { q := { limit := 2, paths := [[wp0], [wp2]],
             costs := [((10 : ℝ) : EReal), ((20 : ℝ) : EReal)] },
      tags := [BranchTag.app, BranchTag.app], accepted := true,
      popped := [([], BranchTag.orig)],
      qsAtPop := [{ limit := 2, paths := [[]], costs := [⊤] }],
      qs := [{ limit := 2, paths := [], costs := [] },
             { limit := 2, paths := [[wp0]], costs := [((10 : ℝ) : EReal)] },
             { limit := 2, paths := [[wp0], [wp2]],
               costs := [((10 : ℝ) : EReal), ((20 : ℝ) : EReal)] },
             { limit := 2, paths := [[wp0], [wp2]],
               costs := [((10 : ℝ) : EReal), ((20 : ℝ) : EReal)] },
             { limit := 2, paths := [[wp0], [wp2]],
               costs := [((10 : ℝ) : EReal), ((20 : ℝ) : EReal)] }] } := by
  simp only [roundBody, List.headD_cons, List.tail_cons, List.length_nil]
  rw [if_neg (by omega)]
  rw [show cexParams.waypoint_field_of_view = 2 * π from rfl,
    show cexParams.waypoint_distance = (3 : ℝ) / 2 from rfl,
    show (lastWaypoint []).x = 0 from rfl, show (lastWaypoint []).y = 0 from rfl,
    show (lastWaypoint []).heading = 0 from rfl]
  rw [filter_pool_origin, branchFold_cex1]
  rw [if_pos rfl]
  rfl

lemma runRound_cex1 :
    runRound [pt0, pt2, pt4, pt6] cexParams cex3Cost
      { limit := 2, paths := [[]], costs := [⊤] } =
    { q := { limit := 2, paths := [[wp0], [wp2]],
             costs := [((10 : ℝ) : EReal), ((20 : ℝ) : EReal)] },
      tags := [BranchTag.app, BranchTag.app], accepted := true,
      popped := [([], BranchTag.orig)],
      qsAtPop := [{ limit := 2, paths := [[]], costs := [⊤] }],
      qs := [{ limit := 2, paths := [], costs := [] },
             { limit := 2, paths := [[wp0]], costs := [((10 : ℝ) : EReal)] },
             { limit := 2, paths := [[wp0], [wp2]],
               costs := [((10 : ℝ) : EReal), ((20 : ℝ) : EReal)] },
             { limit := 2, paths := [[wp0], [wp2]],
               costs := [((10 : ℝ) : EReal), ((20 : ℝ) : EReal)] },
             { limit := 2, paths := [[wp0], [wp2]],
               costs := [((10 : ℝ) : EReal), ((20 : ℝ) : EReal)] }] } := by
  unfold runRound
  rw [show List.range (({ limit := 2, paths := [[]], costs := [⊤] } :
        PathQueue).paths.length) = [0] from rfl,
    show List.replicate (({ limit := 2, paths := [[]], costs := [⊤] } :
        PathQueue).paths.length) BranchTag.orig = [BranchTag.orig] from rfl]
  simp only [List.foldl_cons, List.foldl_nil]
  exact roundBody_cex1

/-! Round 2 of the concrete search: first the dequeued [wp0] branches,
appending one path and replacing the not-yet-dequeued [wp2]. -/

lemma q2_worst :
    getWorstPath
      { limit := 2, paths := [[wp2], [wp0, wp2]],
        costs := [((20 : ℝ) : EReal), ((15 : ℝ) : EReal)] } = 0 := by
  unfold getWorstPath
  rw [worstAux_pair,
    if_neg (show ¬ (((20 : ℝ) : EReal) < ((15 : ℝ) : EReal)) from by
      exact_mod_cast (by norm_num : ¬ ((20 : ℝ) < 15)))]

lemma add_r2a :
    addNewPathTag { limit := 2, paths := [[wp2]], costs := [((20 : ℝ) : EReal)] }
      [BranchTag.orig] [wp0, wp2] ((15 : ℝ) : EReal) BranchTag.app BranchTag.rep =
    ({ limit := 2, paths := [[wp2], [wp0, wp2]],
        costs := [((20 : ℝ) : EReal), ((15 : ℝ) : EReal)] },
      [BranchTag.orig, BranchTag.app], true) := by
  unfold addNewPathTag
  rw [if_neg (by norm_num)]
  rfl

lemma add_r2b :
    addNewPathTag
      { limit := 2, paths := [[wp2], [wp0, wp2]],
        costs := [((20 : ℝ) : EReal), ((15 : ℝ) : EReal)] }
      [BranchTag.orig, BranchTag.app] [wp0, wp4] ((12 : ℝ) : EReal)
      BranchTag.app BranchTag.rep =
    ({ limit := 2, paths := [[wp0, wp4], [wp0, wp2]],
        costs := [((12 : ℝ) : EReal), ((15 : ℝ) : EReal)] },
      [BranchTag.rep, BranchTag.app], true) := by
  unfold addNewPathTag
  rw [if_pos (by norm_num), q2_worst]
  rw [show ({ limit := 2, paths := [[wp2], [wp0, wp2]],
              costs := [((20 : ℝ) : EReal), ((15 : ℝ) : EReal)] } :
        PathQueue).costs.getD 0 0 = ((20 : ℝ) : EReal) from rfl]
  rw [if_pos (show ((12 : ℝ) : EReal) < ((20 : ℝ) : EReal) from by
    exact_mod_cast (by norm_num : (12 : ℝ) < 20))]
  rfl

lemma bs2k0 :
    branchStep [pt0, pt2, pt4, pt6] cex3Cost [wp0] [pt0, pt2, pt6]
      ({ limit := 2, paths := [[wp2]], costs := [((20 : ℝ) : EReal)] },
        [BranchTag.orig], false, []) 0 =
    ({ limit := 2, paths := [[wp2]], costs := [((20 : ℝ) : EReal)] },
      [BranchTag.orig], false, []) := by
  simp only [branchStep]
  rw [show List.getD [pt0, pt2, pt6] 0 { x := 0, y := 0 } = pt0 from rfl]
  rw [if_pos (show hasWaypoint [wp0] { x := pt0.x, y := pt0.y, heading := 0 } from
    ⟨wp0, by simp, rfl, rfl⟩)]

lemma bs2k1 :
    branchStep [pt0, pt2, pt4, pt6] cex3Cost [wp0] [pt0, pt2, pt6]
      ({ limit := 2, paths := [[wp2]], costs := [((20 : ℝ) : EReal)] },
        [BranchTag.orig], false, []) 1 =
    ({ limit := 2, paths := [[wp2], [wp0, wp2]],
        costs := [((20 : ℝ) : EReal), ((15 : ℝ) : EReal)] },
      [BranchTag.orig, BranchTag.app], true,
      [{ limit := 2, paths := [[wp2], [wp0, wp2]],
         costs := [((20 : ℝ) : EReal), ((15 : ℝ) : EReal)] }]) := by
  simp only [branchStep]
  rw [show List.getD [pt0, pt2, pt6] 1 { x := 0, y := 0 } = pt2 from rfl]
  rw [if_neg (show ¬ hasWaypoint [wp0] { x := pt2.x, y := pt2.y, heading := 0 } from by
    simp [hasWaypoint, wp0, pt2])]
  rw [show List.getD [pt0, pt2, pt4, pt6] 1 { x := 0, y := 0 } = pt2 from rfl]
  rw [show addWaypoint [wp0] pt2.x pt2.y = [wp0, wp2] from rfl]
  rw [cex3Cost_wp02, add_r2a]
  rfl

lemma bs2k2 :
    branchStep [pt0, pt2, pt4, pt6] cex3Cost [wp0] [pt0, pt2, pt6]
      ({ limit := 2, paths := [[wp2], [wp0, wp2]],
          costs := [((20 : ℝ) : EReal), ((15 : ℝ) : EReal)] },
        [BranchTag.orig, BranchTag.app], true,
        [{ limit := 2, paths := [[wp2], [wp0, wp2]],
           costs := [((20 : ℝ) : EReal), ((15 : ℝ) : EReal)] }]) 2 =
    ({ limit := 2, paths := [[wp0, wp4], [wp0, wp2]],
        costs := [((12 : ℝ) : EReal), ((15 : ℝ) : EReal)] },
      [BranchTag.rep, BranchTag.app], true,
      [{ limit := 2, paths := [[wp2], [wp0, wp2]],
         costs := [((20 : ℝ) : EReal), ((15 : ℝ) : EReal)] },
       { limit := 2, paths := [[wp0, wp4], [wp0, wp2]],
         costs := [((12 : ℝ) : EReal), ((15 : ℝ) : EReal)] }]) := by
  simp only [branchStep]
  rw [show List.getD [pt0, pt2, pt6] 2 { x := 0, y := 0 } = pt6 from rfl]
  rw [if_neg (show ¬ hasWaypoint [wp0] { x := pt6.x, y := pt6.y, heading := 0 } from by
    simp [hasWaypoint, wp0, pt6])]
  rw [show List.getD [pt0, pt2, pt4, pt6] 2 { x := 0, y := 0 } = pt4 from rfl]
  rw [show addWaypoint [wp0] pt4.x pt4.y = [wp0, wp4] from rfl]
  rw [cex3Cost_wp04, add_r2b]
  rfl

lemma branchFold_cex2 :
    branchFold [pt0, pt2, pt4, pt6] cex3Cost [wp0] [pt0, pt2, pt6]
      { limit := 2, paths := [[wp2]], costs := [((20 : ℝ) : EReal)] } [BranchTag.orig] =
    ({ limit := 2, paths := [[wp0, wp4], [wp0, wp2]],
        costs := [((12 : ℝ) : EReal), ((15 : ℝ) : EReal)] },
      [BranchTag.rep, BranchTag.app], true,
      [{ limit := 2, paths := [[wp2], [wp0, wp2]],
         costs := [((20 : ℝ) : EReal), ((15 : ℝ) : EReal)] },
       { limit := 2, paths := [[wp0, wp4], [wp0, wp2]],
         costs := [((12 : ℝ) : EReal), ((15 : ℝ) : EReal)] }]) := by
  unfold branchFold
  rw [show List.range (List.length [pt0, pt2, pt6]) = [0, 1, 2] from rfl]
  simp only [List.foldl_cons, List.foldl_nil]
  rw [bs2k0, bs2k1, bs2k2]

lemma roundBody_cex2 :
    roundBody [pt0, pt2, pt4, pt6] cexParams cex3Cost
      { q := { limit := 2, paths := [[wp0], [wp2]],
               costs := [((10 : ℝ) : EReal), ((20 : ℝ) : EReal)] },
        tags := [BranchTag.orig, BranchTag.orig], accepted := false,
        popped := [], qsAtPop := [], qs := [] } =
    { q := { limit := 2, paths := [[wp0, wp4], [wp0, wp2]],
             costs := [((12 : ℝ) : EReal), ((15 : ℝ) : EReal)] },
      tags := [BranchTag.rep, BranchTag.app], accepted := true,
      popped := [([wp0], BranchTag.orig)],
      qsAtPop := [{ limit := 2, paths := [[wp0], [wp2]],
                    costs := [((10 : ℝ) : EReal), ((20 : ℝ) : EReal)] }],
      qs := [{ limit := 2, paths := [[wp2]], costs := [((20 : ℝ) : EReal)] },
             { limit := 2, paths := [[wp2], [wp0, wp2]],
               costs := [((20 : ℝ) : EReal), ((15 : ℝ) : EReal)] },
             { limit := 2, paths := [[wp0, wp4], [wp0, wp2]],
               costs := [((12 : ℝ) : EReal), ((15 : ℝ) : EReal)] }] } := by
  simp only [roundBody, List.headD_cons, List.tail_cons]
  rw [if_neg (show ¬ (cexParams.max_waypoints_per_path < List.length [wp0]) from by
    norm_num [cexParams])]
  rw [show cexParams.waypoint_field_of_view = 2 * π from rfl,
    show cexParams.waypoint_distance = (3 : ℝ) / 2 from rfl,
    show (lastWaypoint [wp0]).x = 1 from rfl, show (lastWaypoint [wp0]).y = 0 from rfl,
    show (lastWaypoint [wp0]).heading = 0 from rfl]
  rw [filter_pool_pt0, branchFold_cex2]
  rw [if_pos rfl]
  rfl

/-! Round 2, second iteration: the path created by replacement in this
same round is dequeued and expanded. -/

lemma q3_worst :
    getWorstPath
      { limit := 2, paths := [[wp0, wp2], [wp0, wp4, wp0]],
        costs := [((15 : ℝ) : EReal), ((300 : ℝ) : EReal)] } = 1 := by
  unfold getWorstPath
  rw [worstAux_pair,
    if_pos (show ((15 : ℝ) : EReal) < ((300 : ℝ) : EReal) from by
      exact_mod_cast (by norm_num : (15 : ℝ) < 300))]

lemma add_r3a :
    addNewPathTag { limit := 2, paths := [[wp0, wp2]], costs := [((15 : ℝ) : EReal)] }
      [BranchTag.app] [wp0, wp4, wp0] ((300 : ℝ) : EReal) BranchTag.app BranchTag.rep =
    ({ limit := 2, paths := [[wp0, wp2], [wp0, wp4, wp0]],
        costs := [((15 : ℝ) : EReal), ((300 : ℝ) : EReal)] },
      [BranchTag.app, BranchTag.app], true) := by
  unfold addNewPathTag
  rw [if_neg (by norm_num)]
  rfl

lemma add_r3b :
    addNewPathTag
      { limit := 2, paths := [[wp0, wp2], [wp0, wp4, wp0]],
        costs := [((15 : ℝ) : EReal), ((300 : ℝ) : EReal)] }
      [BranchTag.app, BranchTag.app] [wp0, wp4, wp4] ((300 : ℝ) : EReal)
      BranchTag.app BranchTag.rep =
    ({ limit := 2, paths := [[wp0, wp2], [wp0, wp4, wp0]],
        costs := [((15 : ℝ) : EReal), ((300 : ℝ) : EReal)] },
      [BranchTag.app, BranchTag.app], false) := by
  unfold addNewPathTag
  rw [if_pos (by norm_num), q3_worst]
  rw [show ({ limit := 2, paths := [[wp0, wp2], [wp0, wp4, wp0]],
              costs := [((15 : ℝ) : EReal), ((300 : ℝ) : EReal)] } :
        PathQueue).costs.getD 1 0 = ((300 : ℝ) : EReal) from rfl]
  rw [if_neg (show ¬ (((300 : ℝ) : EReal) < ((300 : ℝ) : EReal)) from lt_irrefl _)]

lemma bs3k0 :
    branchStep [pt0, pt2, pt4, pt6] cex3Cost [wp0, wp4] [pt2, pt4, pt6]
      ({ limit := 2, paths := [[wp0, wp2]], costs := [((15 : ℝ) : EReal)] },
        [BranchTag.app], false, []) 0 =
    ({ limit := 2, paths := [[wp0, wp2], [wp0, wp4, wp0]],
        costs := [((15 : ℝ) : EReal), ((300 : ℝ) : EReal)] },
      [BranchTag.app, BranchTag.app], true,
      [{ limit := 2, paths := [[wp0, wp2], [wp0, wp4, wp0]],
         costs := [((15 : ℝ) : EReal), ((300 : ℝ) : EReal)] }]) := by
  simp only [branchStep]
  rw [show List.getD [pt2, pt4, pt6] 0 { x := 0, y := 0 } = pt2 from rfl]
  rw [if_neg (show ¬ hasWaypoint [wp0, wp4] { x := pt2.x, y := pt2.y, heading := 0 } from by
    simp [hasWaypoint, wp0, wp4, pt2])]
  rw [show List.getD [pt0, pt2, pt4, pt6] 0 { x := 0, y := 0 } = pt0 from rfl]
  rw [show addWaypoint [wp0, wp4] pt0.x pt0.y = [wp0, wp4, wp0] from rfl]
  rw [cex3Cost_wp040, add_r3a]
  rfl

lemma bs3k1 :
    branchStep [pt0, pt2, pt4, pt6] cex3Cost [wp0, wp4] [pt2, pt4, pt6]
      ({ limit := 2, paths := [[wp0, wp2], [wp0, wp4, wp0]],
          costs := [((15 : ℝ) : EReal), ((300 : ℝ) : EReal)] },
        [BranchTag.app, BranchTag.app], true,
        [{ limit := 2, paths := [[wp0, wp2], [wp0, wp4, wp0]],
           costs := [((15 : ℝ) : EReal), ((300 : ℝ) : EReal)] }]) 1 =
    ({ limit := 2, paths := [[wp0, wp2], [wp0, wp4, wp0]],
        costs := [((15 : ℝ) : EReal), ((300 : ℝ) : EReal)] },
      [BranchTag.app, BranchTag.app], true,
      [{ limit := 2, paths := [[wp0, wp2], [wp0, wp4, wp0]],
         costs := [((15 : ℝ) : EReal), ((300 : ℝ) : EReal)] }]) := by
  simp only [branchStep]
  rw [show List.getD [pt2, pt4, pt6] 1 { x := 0, y := 0 } = pt4 from rfl]
  rw [if_pos (show hasWaypoint [wp0, wp4] { x := pt4.x, y := pt4.y, heading := 0 } from
    ⟨wp4, by simp, rfl, rfl⟩)]

lemma bs3k2 :
    branchStep [pt0, pt2, pt4, pt6] cex3Cost [wp0, wp4] [pt2, pt4, pt6]
      ({ limit := 2, paths := [[wp0, wp2], [wp0, wp4, wp0]],
          costs := [((15 : ℝ) : EReal), ((300 : ℝ) : EReal)] },
        [BranchTag.app, BranchTag.app], true,
        [{ limit := 2, paths := [[wp0, wp2], [wp0, wp4, wp0]],
           costs := [((15 : ℝ) : EReal), ((300 : ℝ) : EReal)] }]) 2 =
    ({ limit := 2, paths := [[wp0, wp2], [wp0, wp4, wp0]],
        costs := [((15 : ℝ) : EReal), ((300 : ℝ) : EReal)] },
      [BranchTag.app, BranchTag.app], true,
      [{ limit := 2, paths := [[wp0, wp2], [wp0, wp4, wp0]],
         costs := [((15 : ℝ) : EReal), ((300 : ℝ) : EReal)] },
       { limit := 2, paths := [[wp0, wp2], [wp0, wp4, wp0]],
         costs := [((15 : ℝ) : EReal), ((300 : ℝ) : EReal)] }]) := by
  simp only [branchStep]
  rw [show List.getD [pt2, pt4, pt6] 2 { x := 0, y := 0 } = pt6 from rfl]
  rw [if_neg (show ¬ hasWaypoint [wp0, wp4] { x := pt6.x, y := pt6.y, heading := 0 } from by
    simp [hasWaypoint, wp0, wp4, pt6])]
  rw [show List.getD [pt0, pt2, pt4, pt6] 2 { x := 0, y := 0 } = pt4 from rfl]
  rw [show addWaypoint [wp0, wp4] pt4.x pt4.y = [wp0, wp4, wp4] from rfl]
  rw [cex3Cost_wp044, add_r3b]
  rfl

lemma branchFold_cex3 :
    branchFold [pt0, pt2, pt4, pt6] cex3Cost [wp0, wp4] [pt2, pt4, pt6]
      { limit := 2, paths := [[wp0, wp2]], costs := [((15 : ℝ) : EReal)] }
      [BranchTag.app] =
    ({ limit := 2, paths := [[wp0, wp2], [wp0, wp4, wp0]],
        costs := [((15 : ℝ) : EReal), ((300 : ℝ) : EReal)] },
      [BranchTag.app, BranchTag.app], true,
      [{ limit := 2, paths := [[wp0, wp2], [wp0, wp4, wp0]],
         costs := [((15 : ℝ) : EReal), ((300 : ℝ) : EReal)] },
       { limit := 2, paths := [[wp0, wp2], [wp0, wp4, wp0]],
         costs := [((15 : ℝ) : EReal), ((300 : ℝ) : EReal)] }]) := by
  unfold branchFold
  rw [show List.range (List.length [pt2, pt4, pt6]) = [0, 1, 2] from rfl]
  simp only [List.foldl_cons, List.foldl_nil]
  rw [bs3k0, bs3k1, bs3k2]

lemma roundBody_cex3 :
    roundBody [pt0, pt2, pt4, pt6] cexParams cex3Cost
      { q := { limit := 2, paths := [[wp0, wp4], [wp0, wp2]],
               costs := [((12 : ℝ) : EReal), ((15 : ℝ) : EReal)] },
        tags := [BranchTag.rep, BranchTag.app], accepted := true,
        popped := [([wp0], BranchTag.orig)],
        qsAtPop := [{ limit := 2, paths := [[wp0], [wp2]],
                      costs := [((10 : ℝ) : EReal), ((20 : ℝ) : EReal)] }],
        qs := [{ limit := 2, paths := [[wp2]], costs := [((20 : ℝ) : EReal)] },
               { limit := 2, paths := [[wp2], [wp0, wp2]],
                 costs := [((20 : ℝ) : EReal), ((15 : ℝ) : EReal)] },
               { limit := 2, paths := [[wp0, wp4], [wp0, wp2]],
                 costs := [((12 : ℝ) : EReal), ((15 : ℝ) : EReal)] }] } =
    { q := { limit := 2, paths := [[wp0, wp2], [wp0, wp4, wp0]],
             costs := [((15 : ℝ) : EReal), ((300 : ℝ) : EReal)] },
      tags := [BranchTag.app, BranchTag.app], accepted := true,
      popped := [([wp0], BranchTag.orig), ([wp0, wp4], BranchTag.rep)],
      qsAtPop := [{ limit := 2, paths := [[wp0], [wp2]],
                    costs := [((10 : ℝ) : EReal), ((20 : ℝ) : EReal)] },
                  { limit := 2, paths := [[wp0, wp4], [wp0, wp2]],
                    costs := [((12 : ℝ) : EReal), ((15 : ℝ) : EReal)] }],
      qs := [{ limit := 2, paths := [[wp2]], costs := [((20 : ℝ) : EReal)] },
             { limit := 2, paths := [[wp2], [wp0, wp2]],
               costs := [((20 : ℝ) : EReal), ((15 : ℝ) : EReal)] },
             { limit := 2, paths := [[wp0, wp4], [wp0, wp2]],
               costs := [((12 : ℝ) : EReal), ((15 : ℝ) : EReal)] },
             { limit := 2, paths := [[wp0, wp2]], costs := [((15 : ℝ) : EReal)] },
             { limit := 2, paths := [[wp0, wp2], [wp0, wp4, wp0]],
               costs := [((15 : ℝ) : EReal), ((300 : ℝ) : EReal)] },
             { limit := 2, paths := [[wp0, wp2], [wp0, wp4, wp0]],
               costs := [((15 : ℝ) : EReal), ((300 : ℝ) : EReal)] }] } := by
  simp only [roundBody, List.headD_cons, List.tail_cons]
  rw [if_neg (show ¬ (cexParams.max_waypoints_per_path < List.length [wp0, wp4]) from by
    norm_num [cexParams])]
  rw [show cexParams.waypoint_field_of_view = 2 * π from rfl,
    show cexParams.waypoint_distance = (3 : ℝ) / 2 from rfl,
    show (lastWaypoint [wp0, wp4]).x = -1 from rfl,
    show (lastWaypoint [wp0, wp4]).y = 0 from rfl,
    show (lastWaypoint [wp0, wp4]).heading = 0 from rfl]
  rw [filter_pool_pt4, branchFold_cex3]
  rw [if_pos rfl]
  rfl

lemma runRound_cex2 :
    runRound [pt0, pt2, pt4, pt6] cexParams cex3Cost
      { limit := 2, paths := [[wp0], [wp2]],
        costs := [((10 : ℝ) : EReal), ((20 : ℝ) : EReal)] } =
    { q := { limit := 2, paths := [[wp0, wp2], [wp0, wp4, wp0]],
             costs := [((15 : ℝ) : EReal), ((300 : ℝ) : EReal)] },
      tags := [BranchTag.app, BranchTag.app], accepted := true,
      popped := [([wp0], BranchTag.orig), ([wp0, wp4], BranchTag.rep)],
      qsAtPop := [{ limit := 2, paths := [[wp0], [wp2]],
                    costs := [((10 : ℝ) : EReal), ((20 : ℝ) : EReal)] },
                  { limit := 2, paths := [[wp0, wp4], [wp0, wp2]],
                    costs := [((12 : ℝ) : EReal), ((15 : ℝ) : EReal)] }],
      qs := [{ limit := 2, paths := [[wp2]], costs := [((20 : ℝ) : EReal)] },
             { limit := 2, paths := [[wp2], [wp0, wp2]],
               costs := [((20 : ℝ) : EReal), ((15 : ℝ) : EReal)] },
             { limit := 2, paths := [[wp0, wp4], [wp0, wp2]],
               costs := [((12 : ℝ) : EReal), ((15 : ℝ) : EReal)] },
             { limit := 2, paths := [[wp0, wp2]], costs := [((15 : ℝ) : EReal)] },
             { limit := 2, paths := [[wp0, wp2], [wp0, wp4, wp0]],
               costs := [((15 : ℝ) : EReal), ((300 : ℝ) : EReal)] },
             { limit := 2, paths := [[wp0, wp2], [wp0, wp4, wp0]],
               costs := [((15 : ℝ) : EReal), ((300 : ℝ) : EReal)] }] } := by
  unfold runRound
  rw [show List.range (({ limit := 2, paths := [[wp0], [wp2]], costs := [((10 : ℝ) : EReal), ((20 : ℝ) : EReal)] } : PathQueue).paths.length) = [0, 1] from rfl,
    show List.replicate (({ limit := 2, paths := [[wp0], [wp2]], costs := [((10 : ℝ) : EReal), ((20 : ℝ) : EReal)] } : PathQueue).paths.length) BranchTag.orig = [BranchTag.orig, BranchTag.orig] from rfl]
  simp only [List.foldl_cons, List.foldl_nil]
  rw [roundBody_cex2]
  exact roundBody_cex3

lemma searchRec_succ (pool : List Point) (params : TreeSearchParams) (cost : Path → ℝ)
    (n : ℕ) (q : PathQueue) :
    searchRec pool params cost (Nat.succ n) q =
      if (runRound pool params cost q).accepted then
        ((searchRec pool params cost n (runRound pool params cost q).q).1,
          { startQ := q, out := runRound pool params cost q } ::
            (searchRec pool params cost n (runRound pool params cost q).q).2)
      else ((runRound pool params cost q).q,
        [{ startQ := q, out := runRound pool params cost q }]) := rfl

lemma rounds_cex :
    (getPathSearch (TreeSearch.init cexCones cexParams).waypoints cexParams cex3Cost).2 =
      { startQ := { limit := 2, paths := [[]], costs := [⊤] },
        out := { q := { limit := 2, paths := [[wp0], [wp2]],
                        costs := [((10 : ℝ) : EReal), ((20 : ℝ) : EReal)] },
                 tags := [BranchTag.app, BranchTag.app], accepted := true,
                 popped := [([], BranchTag.orig)],
                 qsAtPop := [{ limit := 2, paths := [[]], costs := [⊤] }],
                 qs := [{ limit := 2, paths := [], costs := [] },
                        { limit := 2, paths := [[wp0]], costs := [((10 : ℝ) : EReal)] },
                        { limit := 2, paths := [[wp0], [wp2]],
                          costs := [((10 : ℝ) : EReal), ((20 : ℝ) : EReal)] },
                        { limit := 2, paths := [[wp0], [wp2]],
                          costs := [((10 : ℝ) : EReal), ((20 : ℝ) : EReal)] },
                        { limit := 2, paths := [[wp0], [wp2]],
                          costs := [((10 : ℝ) : EReal), ((20 : ℝ) : EReal)] }] } } ::
      { startQ := { limit := 2, paths := [[wp0], [wp2]],
                    costs := [((10 : ℝ) : EReal), ((20 : ℝ) : EReal)] },
        out := { q := { limit := 2, paths := [[wp0, wp2], [wp0, wp4, wp0]],
                        costs := [((15 : ℝ) : EReal), ((300 : ℝ) : EReal)] },
                 tags := [BranchTag.app, BranchTag.app], accepted := true,
                 popped := [([wp0], BranchTag.orig), ([wp0, wp4], BranchTag.rep)],
                 qsAtPop := [{ limit := 2, paths := [[wp0], [wp2]],
                               costs := [((10 : ℝ) : EReal), ((20 : ℝ) : EReal)] },
                             { limit := 2, paths := [[wp0, wp4], [wp0, wp2]],
                               costs := [((12 : ℝ) : EReal), ((15 : ℝ) : EReal)] }],
                 qs := [{ limit := 2, paths := [[wp2]], costs := [((20 : ℝ) : EReal)] },
                        { limit := 2, paths := [[wp2], [wp0, wp2]],
                          costs := [((20 : ℝ) : EReal), ((15 : ℝ) : EReal)] },
                        { limit := 2, paths := [[wp0, wp4], [wp0, wp2]],
                          costs := [((12 : ℝ) : EReal), ((15 : ℝ) : EReal)] },
                        { limit := 2, paths := [[wp0, wp2]], costs := [((15 : ℝ) : EReal)] },
                        { limit := 2, paths := [[wp0, wp2], [wp0, wp4, wp0]],
                          costs := [((15 : ℝ) : EReal), ((300 : ℝ) : EReal)] },
                        { limit := 2, paths := [[wp0, wp2], [wp0, wp4, wp0]],
                          costs := [((15 : ℝ) : EReal), ((300 : ℝ) : EReal)] }] } } ::
      (searchRec [pt0, pt2, pt4, pt6] cexParams cex3Cost 3
        { limit := 2, paths := [[wp0, wp2], [wp0, wp4, wp0]],
          costs := [((15 : ℝ) : EReal), ((300 : ℝ) : EReal)] }).2 := by
  rw [cex_waypoints]
  unfold getPathSearch
  rw [initialQueue_spec cexParams (by norm_num [cexParams])]
  rw [show cexParams.path_queue_limit = 2 from rfl]
  rw [show cexParams.max_search_iterations = Nat.succ 4 from rfl]
  rw [searchRec_succ, runRound_cex1]
  rw [if_pos rfl]
  rw [show ({ q := { limit := 2, paths := [[wp0], [wp2]],
                     costs := [((10 : ℝ) : EReal), ((20 : ℝ) : EReal)] },
              tags := [BranchTag.app, BranchTag.app], accepted := true,
              popped := [([], BranchTag.orig)],
              qsAtPop := [{ limit := 2, paths := [[]], costs := [⊤] }],
              qs := [{ limit := 2, paths := [], costs := [] },
                     { limit := 2, paths := [[wp0]], costs := [((10 : ℝ) : EReal)] },
                     { limit := 2, paths := [[wp0], [wp2]],
                       costs := [((10 : ℝ) : EReal), ((20 : ℝ) : EReal)] },
                     { limit := 2, paths := [[wp0], [wp2]],
                       costs := [((10 : ℝ) : EReal), ((20 : ℝ) : EReal)] },
                     { limit := 2, paths := [[wp0], [wp2]],
                       costs := [((10 : ℝ) : EReal), ((20 : ℝ) : EReal)] }] } :
        RoundState).q =
      ({ limit := 2, paths := [[wp0], [wp2]],
         costs := [((10 : ℝ) : EReal), ((20 : ℝ) : EReal)] } : PathQueue) from rfl]
  rw [show (4 : ℕ) = Nat.succ 3 from rfl]
  rw [searchRec_succ, runRound_cex2]
  rw [if_pos rfl]

/-- C3 counterexample: on the single origin cone with capacity 2, the
second executed round of getPath dequeues and expands the path
[wp0, wp4], which was not in the frontier at that round's start — it
was accepted (by capacity replacement) during the round itself. -/
theorem c3_counterexample :
    2 ≤ (getPathSearch (TreeSearch.init cexCones cexParams).waypoints cexParams
            cex3Cost).2.length ∧
    [wp0, wp4] ∈ (((getPathSearch (TreeSearch.init cexCones cexParams).waypoints cexParams
            cex3Cost).2).getD 1 default).out.popped.map Prod.fst ∧
    [wp0, wp4] ∉ (((getPathSearch (TreeSearch.init cexCones cexParams).waypoints cexParams
            cex3Cost).2).getD 1 default).startQ.paths := by
  rw [rounds_cex]
  refine ⟨?_, ?_, ?_⟩
  · show 2 ≤ (searchRec [pt0, pt2, pt4, pt6] cexParams cex3Cost 3
        { limit := 2, paths := [[wp0, wp2], [wp0, wp4, wp0]],
          costs := [((15 : ℝ) : EReal), ((300 : ℝ) : EReal)] }).2.length + 1 + 1
    omega
  · show [wp0, wp4] ∈ ([[wp0], [wp0, wp4]] : List Path)
    simp
  · show [wp0, wp4] ∉ ([[wp0], [wp2]] : List Path)
    intro h
    rcases List.mem_cons.mp h with h1 | h2
    · exact wpPath_ne_3 h1
    · rcases List.mem_cons.mp h2 with h3 | h4
      · exact wpPath_ne_4 h3
      · simp at h4

/-! The capacity-1 two-round run: the pool-indexed append puts a
duplicated waypoint into the path that getPath returns. -/

lemma worstAux_single (c : EReal) : worstAux [c] = 0 := by
  unfold worstAux
  rw [show List.range (List.length [c]) = [0] from rfl]
  simp only [List.foldl_cons, List.foldl_nil]
  rw [if_neg (lt_irrefl _)]

lemma bestAux_single (c : EReal) : bestAux [c] = 0 := by
  unfold bestAux
  rw [show List.range (List.length [c]) = [0] from rfl]
  simp only [List.foldl_cons, List.foldl_nil]
  rw [if_neg (lt_irrefl _)]

lemma c2_waypoints :
    (TreeSearch.init cexCones c2Params).waypoints = [pt0, pt2, pt4, pt6] := by
  show triangulate (filterLocalCones cexCones c2Params.field_of_view c2Params.distance 0 0 0)
    c2Params = [pt0, pt2, pt4, pt6]
  rw [show c2Params.field_of_view = 2 * π from rfl, show c2Params.distance = 100 from rfl,
    cone_filter_cex]
  exact triangulate_cex c2Params rfl rfl rfl

lemma c2Cost_wp0 : c2Cost [wp0] = 3 := by
  unfold c2Cost
  rw [if_pos rfl]

lemma c2Cost_wp2 : c2Cost [wp2] = 2 := by
  unfold c2Cost
  rw [if_neg (by norm_num [wp0, wp2]), if_pos rfl]

lemma c2Cost_wp4 : c2Cost [wp4] = 1 := by
  unfold c2Cost
  rw [if_neg (by norm_num [wp4, wp0]), if_neg (by norm_num [wp4, wp2]), if_pos rfl]

lemma c2Cost_wp6 : c2Cost [wp6] = 5 := by
  unfold c2Cost
  rw [if_neg (by norm_num [wp6, wp0]), if_neg (by norm_num [wp6, wp2]),
    if_neg (by norm_num [wp6, wp4]), if_pos rfl]

lemma c2Cost_wp40 : c2Cost [wp4, wp0] = 10 := by
  unfold c2Cost
  rw [if_neg (by simp), if_neg (by simp), if_neg (by simp), if_neg (by simp), if_pos rfl]

lemma c2Cost_wp44 : c2Cost [wp4, wp4] = 0 := by
  unfold c2Cost
  rw [if_neg (by simp), if_neg (by simp), if_neg (by simp), if_neg (by simp),
    if_neg (by norm_num [wp4, wp0]), if_pos rfl]

lemma d2add0 :
    addNewPathTag { limit := 1, paths := [], costs := [] } [] [wp0] ((3 : ℝ) : EReal)
      BranchTag.app BranchTag.rep =
    ({ limit := 1, paths := [[wp0]], costs := [((3 : ℝ) : EReal)] }, [BranchTag.app], true) := by
  unfold addNewPathTag
  rw [if_neg (by norm_num)]
  rfl

lemma d2add1 :
    addNewPathTag { limit := 1, paths := [[wp0]], costs := [((3 : ℝ) : EReal)] }
      [BranchTag.app] [wp2] ((2 : ℝ) : EReal) BranchTag.app BranchTag.rep =
    ({ limit := 1, paths := [[wp2]], costs := [((2 : ℝ) : EReal)] }, [BranchTag.rep], true) := by
  unfold addNewPathTag
  rw [if_pos (by norm_num)]
  rw [show getWorstPath { limit := 1, paths := [[wp0]], costs := [((3 : ℝ) : EReal)] } = 0 from
    worstAux_single _]
  rw [show ({ limit := 1, paths := [[wp0]], costs := [((3 : ℝ) : EReal)] } :
      PathQueue).costs.getD 0 0 = ((3 : ℝ) : EReal) from rfl]
  rw [if_pos (show ((2 : ℝ) : EReal) < ((3 : ℝ) : EReal) from by
    exact_mod_cast (by norm_num : (2 : ℝ) < 3))]
  rfl

lemma d2add2 :
    addNewPathTag { limit := 1, paths := [[wp2]], costs := [((2 : ℝ) : EReal)] }
      [BranchTag.rep] [wp4] ((1 : ℝ) : EReal) BranchTag.app BranchTag.rep =
    ({ limit := 1, paths := [[wp4]], costs := [((1 : ℝ) : EReal)] }, [BranchTag.rep], true) := by
  unfold addNewPathTag
  rw [if_pos (by norm_num)]
  rw [show getWorstPath { limit := 1, paths := [[wp2]], costs := [((2 : ℝ) : EReal)] } = 0 from
    worstAux_single _]
  rw [show ({ limit := 1, paths := [[wp2]], costs := [((2 : ℝ) : EReal)] } :
      PathQueue).costs.getD 0 0 = ((2 : ℝ) : EReal) from rfl]
  rw [if_pos (show ((1 : ℝ) : EReal) < ((2 : ℝ) : EReal) from by
    exact_mod_cast (by norm_num : (1 : ℝ) < 2))]
  rfl

lemma d2add3 :
    addNewPathTag { limit := 1, paths := [[wp4]], costs := [((1 : ℝ) : EReal)] }
      [BranchTag.rep] [wp6] ((5 : ℝ) : EReal) BranchTag.app BranchTag.rep =
    ({ limit := 1, paths := [[wp4]], costs := [((1 : ℝ) : EReal)] }, [BranchTag.rep], false) := by
  unfold addNewPathTag
  rw [if_pos (by norm_num)]
  rw [show getWorstPath { limit := 1, paths := [[wp4]], costs := [((1 : ℝ) : EReal)] } = 0 from
    worstAux_single _]
  rw [show ({ limit := 1, paths := [[wp4]], costs := [((1 : ℝ) : EReal)] } :
      PathQueue).costs.getD 0 0 = ((1 : ℝ) : EReal) from rfl]
  rw [if_neg (show ¬ (((5 : ℝ) : EReal) < ((1 : ℝ) : EReal)) from by
    exact_mod_cast (by norm_num : ¬ ((5 : ℝ) < 1)))]

lemma d2bs0 :
    branchStep [pt0, pt2, pt4, pt6] c2Cost [] [pt0, pt2, pt4, pt6]
      ({ limit := 1, paths := [], costs := [] }, [], false, []) 0 =
    ({ limit := 1, paths := [[wp0]], costs := [((3 : ℝ) : EReal)] }, [BranchTag.app], true,
      [{ limit := 1, paths := [[wp0]], costs := [((3 : ℝ) : EReal)] }]) := by
  simp only [branchStep]
  rw [show List.getD [pt0, pt2, pt4, pt6] 0 { x := 0, y := 0 } = pt0 from rfl]
  rw [if_neg (show ¬ hasWaypoint [] { x := pt0.x, y := pt0.y, heading := 0 } from by
    simp [hasWaypoint])]
  rw [show addWaypoint [] pt0.x pt0.y = [wp0] from rfl]
  rw [c2Cost_wp0, d2add0]
  rfl

lemma d2bs1 :
    branchStep [pt0, pt2, pt4, pt6] c2Cost [] [pt0, pt2, pt4, pt6]
      ({ limit := 1, paths := [[wp0]], costs := [((3 : ℝ) : EReal)] }, [BranchTag.app], true,
        [{ limit := 1, paths := [[wp0]], costs := [((3 : ℝ) : EReal)] }]) 1 =
    ({ limit := 1, paths := [[wp2]], costs := [((2 : ℝ) : EReal)] }, [BranchTag.rep], true,
      [{ limit := 1, paths := [[wp0]], costs := [((3 : ℝ) : EReal)] },
       { limit := 1, paths := [[wp2]], costs := [((2 : ℝ) : EReal)] }]) := by
  simp only [branchStep]
  rw [show List.getD [pt0, pt2, pt4, pt6] 1 { x := 0, y := 0 } = pt2 from rfl]
  rw [if_neg (show ¬ hasWaypoint [] { x := pt2.x, y := pt2.y, heading := 0 } from by
    simp [hasWaypoint])]
  rw [show addWaypoint [] pt2.x pt2.y = [wp2] from rfl]
  rw [c2Cost_wp2, d2add1]
  rfl

lemma d2bs2 :
    branchStep [pt0, pt2, pt4, pt6] c2Cost [] [pt0, pt2, pt4, pt6]
      ({ limit := 1, paths := [[wp2]], costs := [((2 : ℝ) : EReal)] }, [BranchTag.rep], true,
        [{ limit := 1, paths := [[wp0]], costs := [((3 : ℝ) : EReal)] },
         { limit := 1, paths := [[wp2]], costs := [((2 : ℝ) : EReal)] }]) 2 =
    ({ limit := 1, paths := [[wp4]], costs := [((1 : ℝ) : EReal)] }, [BranchTag.rep], true,
      [{ limit := 1, paths := [[wp0]], costs := [((3 : ℝ) : EReal)] },
       { limit := 1, paths := [[wp2]], costs := [((2 : ℝ) : EReal)] },
       { limit := 1, paths := [[wp4]], costs := [((1 : ℝ) : EReal)] }]) := by
  simp only [branchStep]
  rw [show List.getD [pt0, pt2, pt4, pt6] 2 { x := 0, y := 0 } = pt4 from rfl]
  rw [if_neg (show ¬ hasWaypoint [] { x := pt4.x, y := pt4.y, heading := 0 } from by
    simp [hasWaypoint])]
  rw [show addWaypoint [] pt4.x pt4.y = [wp4] from rfl]
  rw [c2Cost_wp4, d2add2]
  rfl

lemma d2bs3 :
    branchStep [pt0, pt2, pt4, pt6] c2Cost [] [pt0, pt2, pt4, pt6]
      ({ limit := 1, paths := [[wp4]], costs := [((1 : ℝ) : EReal)] }, [BranchTag.rep], true,
        [{ limit := 1, paths := [[wp0]], costs := [((3 : ℝ) : EReal)] },
         { limit := 1, paths := [[wp2]], costs := [((2 : ℝ) : EReal)] },
         { limit := 1, paths := [[wp4]], costs := [((1 : ℝ) : EReal)] }]) 3 =
    ({ limit := 1, paths := [[wp4]], costs := [((1 : ℝ) : EReal)] }, [BranchTag.rep], true,
      [{ limit := 1, paths := [[wp0]], costs := [((3 : ℝ) : EReal)] },
       { limit := 1, paths := [[wp2]], costs := [((2 : ℝ) : EReal)] },
       { limit := 1, paths := [[wp4]], costs := [((1 : ℝ) : EReal)] },
       { limit := 1, paths := [[wp4]], costs := [((1 : ℝ) : EReal)] }]) := by
  simp only [branchStep]
  rw [show List.getD [pt0, pt2, pt4, pt6] 3 { x := 0, y := 0 } = pt6 from rfl]
  rw [if_neg (show ¬ hasWaypoint [] { x := pt6.x, y := pt6.y, heading := 0 } from by
    simp [hasWaypoint])]
  rw [show addWaypoint [] pt6.x pt6.y = [wp6] from rfl]
  rw [c2Cost_wp6, d2add3]
  rfl

lemma branchFold_d2 :
    branchFold [pt0, pt2, pt4, pt6] c2Cost [] [pt0, pt2, pt4, pt6]
      { limit := 1, paths := [], costs := [] } [] =
    ({ limit := 1, paths := [[wp4]], costs := [((1 : ℝ) : EReal)] }, [BranchTag.rep], true,
      [{ limit := 1, paths := [[wp0]], costs := [((3 : ℝ) : EReal)] },
       { limit := 1, paths := [[wp2]], costs := [((2 : ℝ) : EReal)] },
       { limit := 1, paths := [[wp4]], costs := [((1 : ℝ) : EReal)] },
       { limit := 1, paths := [[wp4]], costs := [((1 : ℝ) : EReal)] }]) := by
  unfold branchFold
  rw [show List.range (List.length [pt0, pt2, pt4, pt6]) = [0, 1, 2, 3] from rfl]
  simp only [List.foldl_cons, List.foldl_nil]
  rw [d2bs0, d2bs1, d2bs2, d2bs3]

lemma roundBody_d2 :
    roundBody [pt0, pt2, pt4, pt6] c2Params c2Cost
      { q := { limit := 1, paths := [[]], costs := [⊤] }, tags := [BranchTag.orig],
        accepted := false, popped := [], qsAtPop := [], qs := [] } =
    { q := { limit := 1, paths := [[wp4]], costs := [((1 : ℝ) : EReal)] },
      tags := [BranchTag.rep], accepted := true,
      popped := [([], BranchTag.orig)],
      qsAtPop := [{ limit := 1, paths := [[]], costs := [⊤] }],
      qs := [{ limit := 1, paths := [], costs := [] },
             { limit := 1, paths := [[wp0]], costs := [((3 : ℝ) : EReal)] },
             { limit := 1, paths := [[wp2]], costs := [((2 : ℝ) : EReal)] },
             { limit := 1, paths := [[wp4]], costs := [((1 : ℝ) : EReal)] },
             { limit := 1, paths := [[wp4]], costs := [((1 : ℝ) : EReal)] }] } := by
  simp only [roundBody, List.headD_cons, List.tail_cons, List.length_nil]
  rw [if_neg (by omega)]
  rw [show c2Params.waypoint_field_of_view = 2 * π from rfl,
    show c2Params.waypoint_distance = (3 : ℝ) / 2 from rfl,
    show (lastWaypoint []).x = 0 from rfl, show (lastWaypoint []).y = 0 from rfl,
    show (lastWaypoint []).heading = 0 from rfl]
  rw [filter_pool_origin, branchFold_d2]
  rw [if_pos rfl]
  rfl

lemma runRound_d2 :
    runRound [pt0, pt2, pt4, pt6] c2Params c2Cost
      { limit := 1, paths := [[]], costs := [⊤] } =
    { q := { limit := 1, paths := [[wp4]], costs := [((1 : ℝ) : EReal)] },
      tags := [BranchTag.rep], accepted := true,
      popped := [([], BranchTag.orig)],
      qsAtPop := [{ limit := 1, paths := [[]], costs := [⊤] }],
      qs := [{ limit := 1, paths := [], costs := [] },
             { limit := 1, paths := [[wp0]], costs := [((3 : ℝ) : EReal)] },
             { limit := 1, paths := [[wp2]], costs := [((2 : ℝ) : EReal)] },
             { limit := 1, paths := [[wp4]], costs := [((1 : ℝ) : EReal)] },
             { limit := 1, paths := [[wp4]], costs := [((1 : ℝ) : EReal)] }] } := by
  unfold runRound
  rw [show List.range (({ limit := 1, paths := [[]], costs := [⊤] } :
        PathQueue).paths.length) = [0] from rfl,
    show List.replicate (({ limit := 1, paths := [[]], costs := [⊤] } :
        PathQueue).paths.length) BranchTag.orig = [BranchTag.orig] from rfl]
  simp only [List.foldl_cons, List.foldl_nil]
  exact roundBody_d2

lemma e2add0 :
    addNewPathTag { limit := 1, paths := [], costs := [] } [] [wp4, wp0] ((10 : ℝ) : EReal)
      BranchTag.app BranchTag.rep =
    ({ limit := 1, paths := [[wp4, wp0]], costs := [((10 : ℝ) : EReal)] },
      [BranchTag.app], true) := by
  unfold addNewPathTag
  rw [if_neg (by norm_num)]
  rfl

lemma e2add2 :
    addNewPathTag { limit := 1, paths := [[wp4, wp0]], costs := [((10 : ℝ) : EReal)] }
      [BranchTag.app] [wp4, wp4] ((0 : ℝ) : EReal) BranchTag.app BranchTag.rep =
    ({ limit := 1, paths := [[wp4, wp4]], costs := [((0 : ℝ) : EReal)] },
      [BranchTag.rep], true) := by
  unfold addNewPathTag
  rw [if_pos (by norm_num)]
  rw [show getWorstPath { limit := 1, paths := [[wp4, wp0]], costs := [((10 : ℝ) : EReal)] } = 0 from worstAux_single _]
  rw [show ({ limit := 1, paths := [[wp4, wp0]], costs := [((10 : ℝ) : EReal)] } :
      PathQueue).costs.getD 0 0 = ((10 : ℝ) : EReal) from rfl]
  rw [if_pos (show ((0 : ℝ) : EReal) < ((10 : ℝ) : EReal) from by
    exact_mod_cast (by norm_num : (0 : ℝ) < 10))]
  rfl

lemma e2bs0 :
    branchStep [pt0, pt2, pt4, pt6] c2Cost [wp4] [pt2, pt4, pt6]
      ({ limit := 1, paths := [], costs := [] }, [], false, []) 0 =
    ({ limit := 1, paths := [[wp4, wp0]], costs := [((10 : ℝ) : EReal)] },
      [BranchTag.app], true,
      [{ limit := 1, paths := [[wp4, wp0]], costs := [((10 : ℝ) : EReal)] }]) := by
  simp only [branchStep]
  rw [show List.getD [pt2, pt4, pt6] 0 { x := 0, y := 0 } = pt2 from rfl]
  rw [if_neg (show ¬ hasWaypoint [wp4] { x := pt2.x, y := pt2.y, heading := 0 } from by
    simp [hasWaypoint, wp4, pt2])]
  rw [show List.getD [pt0, pt2, pt4, pt6] 0 { x := 0, y := 0 } = pt0 from rfl]
  rw [show addWaypoint [wp4] pt0.x pt0.y = [wp4, wp0] from rfl]
  rw [c2Cost_wp40, e2add0]
  rfl

lemma e2bs1 :
    branchStep [pt0, pt2, pt4, pt6] c2Cost [wp4] [pt2, pt4, pt6]
      ({ limit := 1, paths := [[wp4, wp0]], costs := [((10 : ℝ) : EReal)] },
        [BranchTag.app], true,
        [{ limit := 1, paths := [[wp4, wp0]], costs := [((10 : ℝ) : EReal)] }]) 1 =
    ({ limit := 1, paths := [[wp4, wp0]], costs := [((10 : ℝ) : EReal)] },
      [BranchTag.app], true,
      [{ limit := 1, paths := [[wp4, wp0]], costs := [((10 : ℝ) : EReal)] }]) := by
  simp only [branchStep]
  rw [show List.getD [pt2, pt4, pt6] 1 { x := 0, y := 0 } = pt4 from rfl]
  rw [if_pos (show hasWaypoint [wp4] { x := pt4.x, y := pt4.y, heading := 0 } from
    ⟨wp4, by simp, rfl, rfl⟩)]

lemma e2bs2 :
    branchStep [pt0, pt2, pt4, pt6] c2Cost [wp4] [pt2, pt4, pt6]
      ({ limit := 1, paths := [[wp4, wp0]], costs := [((10 : ℝ) : EReal)] },
        [BranchTag.app], true,
        [{ limit := 1, paths := [[wp4, wp0]], costs := [((10 : ℝ) : EReal)] }]) 2 =
    ({ limit := 1, paths := [[wp4, wp4]], costs := [((0 : ℝ) : EReal)] },
      [BranchTag.rep], true,
      [{ limit := 1, paths := [[wp4, wp0]], costs := [((10 : ℝ) : EReal)] },
       { limit := 1, paths := [[wp4, wp4]], costs := [((0 : ℝ) : EReal)] }]) := by
  simp only [branchStep]
  rw [show List.getD [pt2, pt4, pt6] 2 { x := 0, y := 0 } = pt6 from rfl]
  rw [if_neg (show ¬ hasWaypoint [wp4] { x := pt6.x, y := pt6.y, heading := 0 } from by
    simp [hasWaypoint, wp4, pt6])]
  rw [show List.getD [pt0, pt2, pt4, pt6] 2 { x := 0, y := 0 } = pt4 from rfl]
  rw [show addWaypoint [wp4] pt4.x pt4.y = [wp4, wp4] from rfl]
  rw [c2Cost_wp44, e2add2]
  rfl

lemma branchFold_e2 :
    branchFold [pt0, pt2, pt4, pt6] c2Cost [wp4] [pt2, pt4, pt6]
      { limit := 1, paths := [], costs := [] } [] =
    ({ limit := 1, paths := [[wp4, wp4]], costs := [((0 : ℝ) : EReal)] },
      [BranchTag.rep], true,
      [{ limit := 1, paths := [[wp4, wp0]], costs := [((10 : ℝ) : EReal)] },
       { limit := 1, paths := [[wp4, wp4]], costs := [((0 : ℝ) : EReal)] }]) := by
  unfold branchFold
  rw [show List.range (List.length [pt2, pt4, pt6]) = [0, 1, 2] from rfl]
  simp only [List.foldl_cons, List.foldl_nil]
  rw [e2bs0, e2bs1, e2bs2]

lemma roundBody_e2 :
    roundBody [pt0, pt2, pt4, pt6] c2Params c2Cost
      { q := { limit := 1, paths := [[wp4]], costs := [((1 : ℝ) : EReal)] },
        tags := [BranchTag.orig], accepted := false, popped := [], qsAtPop := [],
        qs := [] } =
    { q := { limit := 1, paths := [[wp4, wp4]], costs := [((0 : ℝ) : EReal)] },
      tags := [BranchTag.rep], accepted := true,
      popped := [([wp4], BranchTag.orig)],
      qsAtPop := [{ limit := 1, paths := [[wp4]], costs := [((1 : ℝ) : EReal)] }],
      qs := [{ limit := 1, paths := [], costs := [] },
             { limit := 1, paths := [[wp4, wp0]], costs := [((10 : ℝ) : EReal)] },
             { limit := 1, paths := [[wp4, wp4]], costs := [((0 : ℝ) : EReal)] }] } := by
  simp only [roundBody, List.headD_cons, List.tail_cons]
  rw [if_neg (show ¬ (c2Params.max_waypoints_per_path < List.length [wp4]) from by
    norm_num [c2Params])]
  rw [show c2Params.waypoint_field_of_view = 2 * π from rfl,
    show c2Params.waypoint_distance = (3 : ℝ) / 2 from rfl,
    show (lastWaypoint [wp4]).x = -1 from rfl,
    show (lastWaypoint [wp4]).y = 0 from rfl,
    show (lastWaypoint [wp4]).heading = 0 from rfl]
  rw [filter_pool_pt4, branchFold_e2]
  rw [if_pos rfl]
  rfl

lemma runRound_e2 :
    runRound [pt0, pt2, pt4, pt6] c2Params c2Cost
      { limit := 1, paths := [[wp4]], costs := [((1 : ℝ) : EReal)] } =
    { q := { limit := 1, paths := [[wp4, wp4]], costs := [((0 : ℝ) : EReal)] },
      tags := [BranchTag.rep], accepted := true,
      popped := [([wp4], BranchTag.orig)],
      qsAtPop := [{ limit := 1, paths := [[wp4]], costs := [((1 : ℝ) : EReal)] }],
      qs := [{ limit := 1, paths := [], costs := [] },
             { limit := 1, paths := [[wp4, wp0]], costs := [((10 : ℝ) : EReal)] },
             { limit := 1, paths := [[wp4, wp4]], costs := [((0 : ℝ) : EReal)] }] } := by
  unfold runRound
  rw [show List.range (({ limit := 1, paths := [[wp4]], costs := [((1 : ℝ) : EReal)] } :
        PathQueue).paths.length) = [0] from rfl,
    show List.replicate (({ limit := 1, paths := [[wp4]], costs := [((1 : ℝ) : EReal)] } :
        PathQueue).paths.length) BranchTag.orig = [BranchTag.orig] from rfl]
  simp only [List.foldl_cons, List.foldl_nil]
  exact roundBody_e2

lemma c2_final_queue :
    (getPathSearch (TreeSearch.init cexCones c2Params).waypoints c2Params c2Cost).1 =
      { limit := 1, paths := [[wp4, wp4]], costs := [((0 : ℝ) : EReal)] } := by
  rw [c2_waypoints]
  unfold getPathSearch
  rw [initialQueue_spec c2Params (by norm_num [c2Params])]
  rw [show c2Params.path_queue_limit = 1 from rfl]
  rw [show c2Params.max_search_iterations = Nat.succ (Nat.succ 0) from rfl]
  rw [searchRec_succ, runRound_d2]
  rw [if_pos rfl]
  rw [show ({ q := { limit := 1, paths := [[wp4]], costs := [((1 : ℝ) : EReal)] },
              tags := [BranchTag.rep], accepted := true,
              popped := [([], BranchTag.orig)],
              qsAtPop := [{ limit := 1, paths := [[]], costs := [⊤] }],
              qs := [{ limit := 1, paths := [], costs := [] },
                     { limit := 1, paths := [[wp0]], costs := [((3 : ℝ) : EReal)] },
                     { limit := 1, paths := [[wp2]], costs := [((2 : ℝ) : EReal)] },
                     { limit := 1, paths := [[wp4]], costs := [((1 : ℝ) : EReal)] },
                     { limit := 1, paths := [[wp4]], costs := [((1 : ℝ) : EReal)] }] } :
        RoundState).q =
      ({ limit := 1, paths := [[wp4]], costs := [((1 : ℝ) : EReal)] } : PathQueue) from rfl]
  rw [searchRec_succ, runRound_e2]
  rw [if_pos rfl]
  rfl

/-- C2: the returned path can contain the same waypoint twice. On the
single origin cone with capacity 1 and two rounds, the expansion of
[wp4] passes the duplicate guard with candidate pt6 but then appends
pool entry pt4 (the loop-index bug), and getPath returns [wp4, wp4]. -/
theorem c2_returned_path_duplicates :
    TreeSearch.getPath (TreeSearch.init cexCones c2Params) c2Cost = [wp4, wp4] ∧
    ¬ dupFree [wp4, wp4] := by
  constructor
  · show (getPathSearch (TreeSearch.init cexCones c2Params).waypoints c2Params
        c2Cost).1.paths.getD
      (getBestPath (getPathSearch (TreeSearch.init cexCones c2Params).waypoints c2Params
        c2Cost).1) [] = [wp4, wp4]
    rw [c2_final_queue]
    rw [show getBestPath { limit := 1, paths := [[wp4, wp4]], costs := [((0 : ℝ) : EReal)] } = 0 from bestAux_single _]
    rfl
  · intro h
    rcases (List.pairwise_cons.mp h).1 wp4 (by simp) with h1 | h1 <;> exact h1 rfl

/-- C1: the code appends the global pool entry at the filtered-candidate
loop index, not the candidate itself (tree_search.cpp line 125). On the
origin-cone run: the local filter at pose (1, 0) returns [pt0, pt2, pt6]
— pt4 is not visible — yet expanding [wp0] puts the branch [wp0, wp4]
into the frontier, whose appended waypoint has pt4's coordinates. -/
theorem c1_branch_appends_unfiltered_pool_entry :
    filterLocal (TreeSearch.init cexCones cexParams).waypoints
        cexParams.waypoint_field_of_view cexParams.waypoint_distance 1 0 0 =
      [pt0, pt2, pt6] ∧
    pt4 ∉ [pt0, pt2, pt6] ∧
    [wp0, wp4] ∈ (roundBody (TreeSearch.init cexCones cexParams).waypoints cexParams cex3Cost
      { q := { limit := 2, paths := [[wp0], [wp2]],
               costs := [((10 : ℝ) : EReal), ((20 : ℝ) : EReal)] },
        tags := [BranchTag.orig, BranchTag.orig], accepted := false,
        popped := [], qsAtPop := [], qs := [] }).q.paths ∧
    wp4.x = pt4.x ∧ wp4.y = pt4.y := by
  refine ⟨?_, ?_, ?_, rfl, rfl⟩
  · rw [cex_waypoints, show cexParams.waypoint_field_of_view = 2 * π from rfl,
      show cexParams.waypoint_distance = (3 : ℝ) / 2 from rfl]
    exact filter_pool_pt0
  · norm_num [pt0, pt2, pt4, pt6]
  · rw [cex_waypoints, roundBody_cex2]
    simp

end PlanningTrees

end
